import Mathlib

/-!
Verification development for the budgetExtractor table-structure recovery
pipeline.  The Python modules (`economic.py`, `admin_units.py`,
`programme_projects.py`, `receipts.py`, `summary.py`, `metadata.py`,
`validation.py`, `pipeline.py`) are embedded shallowly: pure Python functions
become Lean functions over `List Char` / `String`, monetary amounts are
modelled as `ℚ` (every amount the system parses is a decimal literal, hence
exactly representable), and the handful of regular expressions are compiled by
hand into deterministic matchers that mirror Python `re` semantics (leftmost
match, greedy quantifiers; the patterns used by the code never require
backtracking beyond the bounded cases analysed at each matcher).

Inputs handled by the pipeline are ASCII text produced by `pdftotext`; the
embedding therefore models `\s`, `\d`, `\w`, `str.lower` and friends on the
ASCII range (plus the non-ASCII characters that appear literally in the
source, such as the en dash in `admin_units.parse_amount`).
-/

/-! ### Character and string primitives -/

/-- Python whitespace (`str.strip`, regex `\s`) restricted to ASCII:
space, tab, newline, carriage return, vertical tab, form feed. -/
def isPySpace (c : Char) : Bool :=
  c = ' ' || c = '\t' || c = '\n' || c = '\x0d' || c = '\x0b' || c = '\x0c'

/-- ASCII decimal digit (regex `\d`, on the ASCII inputs this system sees). -/
def isDig (c : Char) : Bool := '0' ≤ c && c ≤ '9'

/-- ASCII letter (Python `str.isalpha` on ASCII input). -/
def isAsciiAlpha (c : Char) : Bool :=
  ('a' ≤ c && c ≤ 'z') || ('A' ≤ c && c ≤ 'Z')

/-- Regex word character `\w` (ASCII). -/
def isWordChar (c : Char) : Bool := isAsciiAlpha c || isDig c || c = '_'

/-- ASCII lowercasing (Python `str.lower` on the ASCII inputs used here). -/
def lowerChar (c : Char) : Char :=
  if 'A' ≤ c && c ≤ 'Z' then Char.ofNat (c.toNat + 32) else c

def lowerC (l : List Char) : List Char := l.map lowerChar

def upperChar (c : Char) : Char :=
  if 'a' ≤ c && c ≤ 'z' then Char.ofNat (c.toNat - 32) else c

def upperC (l : List Char) : List Char := l.map upperChar

/-- `str.lstrip()`. -/
def lstripC (l : List Char) : List Char := l.dropWhile isPySpace

/-- `str.rstrip()`. -/
def rstripC (l : List Char) : List Char :=
  (l.reverse.dropWhile isPySpace).reverse

/-- `str.strip()`. -/
def stripC (l : List Char) : List Char := rstripC (lstripC l)

def pyStrip (s : String) : String := String.mk (stripC s.data)

def pyRstrip (s : String) : String := String.mk (rstripC s.data)

/-- `pat` is a prefix of `hay`. -/
def isPrefixC : List Char → List Char → Bool
  | [], _ => true
  | _ :: _, [] => false
  | p :: ps, h :: hs => p = h && isPrefixC ps hs

/-- Python substring containment `pat in hay`. -/
def containsSub : List Char → List Char → Bool
  | hay, pat =>
    match hay with
    | [] => isPrefixC pat []
    | _ :: t => isPrefixC pat hay || containsSub t pat

/-- Case-insensitive containment: `re.search` of a literal pattern with
`re.IGNORECASE`, or `pat in s.lower()`.  `pat` is given lowercase. -/
def containsCI (s : String) (pat : String) : Bool :=
  containsSub (lowerC s.data) pat.data

/-- Case-sensitive containment `pat in s`. -/
def containsStr (s : String) (pat : String) : Bool :=
  containsSub s.data pat.data

/-- `str.splitlines()` for line content without exotic separators:
splits on `'\n'`, dropping the final empty piece produced by a trailing
newline (Python keeps no empty last line). -/
def pySplitlines (s : String) : List String :=
  if s.data = [] then []
  else
    let parts := s.data.splitOn '\n'
    let parts := if s.data.getLast? = some '\n' then parts.dropLast else parts
    parts.map String.mk

theorem length_dropWhile_le (p : Char → Bool) (l : List Char) :
    (l.dropWhile p).length ≤ l.length := by
  induction l with
  | nil => simp [List.dropWhile]
  | cons a t ih =>
    simp only [List.dropWhile]
    split
    · exact le_trans ih (by simp)
    · simp

/-- Splitting on a run of two or more whitespace characters
(`re.split(r"\s{2,}", ·)`): maximal whitespace runs of length ≥ 2 are
separators, single whitespace characters are kept inside fragments.
Structural recursion on a fuel of `length + 1`: every recursive call drops
at least one character, so the fuel never runs out (the `0` case is
unreachable). -/
def splitRunsF : Nat → List Char → List Char → List (List Char)
  | 0, acc, _ => [acc.reverse]
  | _ + 1, acc, [] => [acc.reverse]
  | _ + 1, acc, [c] => [(c :: acc).reverse]
  | fuel + 1, acc, c1 :: c2 :: rest =>
    if isPySpace c1 then
      if isPySpace c2 then
        acc.reverse :: splitRunsF fuel [] (rest.dropWhile isPySpace)
      else
        splitRunsF fuel (c1 :: acc) (c2 :: rest)
    else
      splitRunsF fuel (c1 :: acc) (c2 :: rest)

def splitWsRuns (l : List Char) : List (List Char) :=
  splitRunsF (l.length + 1) [] l

/-- `re.sub(r"\s+", " ", ·)`: collapse every whitespace run to one space
(fueled like `splitRunsF`). -/
def collapseF : Nat → List Char → List Char
  | 0, _ => []
  | _ + 1, [] => []
  | fuel + 1, c :: t =>
    if isPySpace c then ' ' :: collapseF fuel (t.dropWhile isPySpace)
    else c :: collapseF fuel t

def collapseWS (l : List Char) : List Char := collapseF (l.length + 1) l

/-- `Path(name).stem`: the file name with its last extension removed. -/
def pyStem (name : String) : String :=
  let l := name.data
  match (l.reverse.splitOn '.') with
  | [] => name
  | [_] => name
  | _ :: rest =>
    -- drop everything from the last '.' (inclusive); Python keeps a leading
    -- dot-less behaviour we do not need for the names used here
    String.mk ((String.intercalate "." ((rest.reverse.map
      (fun seg => String.mk seg.reverse)))).data)

/-- `value.split(sep, 1)[0]`: text before the first occurrence of `sep`. -/
def beforeFirst (l : List Char) (sep : Char) : List Char :=
  l.takeWhile (· ≠ sep)

/-- `str.strip(chars)` for an explicit character set. -/
def stripSet (l : List Char) (set : List Char) : List Char :=
  ((l.dropWhile (set.contains ·)).reverse.dropWhile (set.contains ·)).reverse

/-! ### Python `float()` on strings over the alphabet `[0-9.-]`

After `parse_amount`'s stripping step the candidate string only contains
digits, `'.'` and `'-'`, so `float()` accepts exactly an optional leading
sign followed by `digits [. digits]` or `. digits`; everything else raises
`ValueError` (caught by the caller, yielding `None`). -/

def digitsVal (l : List Char) : ℕ :=
  l.foldl (fun acc c => acc * 10 + (c.toNat - '0'.toNat)) 0

def pyFloatUnsigned (l : List Char) : Option ℚ :=
  match l.splitOn '.' with
  | [a] =>
    if a ≠ [] && a.all isDig then some (digitsVal a) else none
  | [a, b] =>
    if (a ≠ [] || b ≠ []) && a.all isDig && b.all isDig then
      -- intPart + frac / 10^k, built with `mkRat` so the value is a single
      -- normalized rational
      some (mkRat (digitsVal a * 10 ^ b.length + digitsVal b) (10 ^ b.length))
    else none
  | _ => none

def pyFloat? (l : List Char) : Option ℚ :=
  match l with
  | '-' :: rest => (pyFloatUnsigned rest).map (fun q => -q)
  | _ => pyFloatUnsigned l

/-! ### `parse_amount`

Both `admin_units.py` and `economic.py` define `parse_amount`.  The two
copies differ in one byte sequence: the explicit-zero set of the admin copy
is `{"-", "–"}` (U+2013 en dash) while the economic copy's source bytes
decode to `{"-", "â€“"}` — the UTF-8 encoding of the en dash re-decoded as
cp1252, i.e. the three characters U+00E2 U+20AC U+201C. -/

/-- The three-character mojibake literal in `economic.parse_amount`. -/
def econDashLiteral : String :=
  String.mk [Char.ofNat 0xE2, Char.ofNat 0x20AC, Char.ofNat 0x201C]

def parse_amount_core (dashAlt : String) (raw : String) : Option ℚ :=
  let value := pyStrip raw
  if value = "" then none
  else if value = "-" || value = dashAlt then some 0
  else
    -- value.replace(",", "")
    let v := value.data.filter (· ≠ ',')
    -- value.replace("(", "-").replace(")", "")
    let v := (v.map (fun c => if c = '(' then '-' else c)).filter (· ≠ ')')
    -- re.sub(r"[^0-9.\-]", "", value)
    let v := v.filter (fun c => isDig c || c = '.' || c = '-')
    if v = [] || v = ['-'] then none else pyFloat? v

/-- `admin_units.parse_amount` (explicit-zero set `{"-", "–"}`). -/
def parse_amount_admin (raw : String) : Option ℚ :=
  parse_amount_core "–" raw

/-- `economic.parse_amount` (explicit-zero set `{"-", "â€“"}`, see above). -/
def parse_amount_econ (raw : String) : Option ℚ :=
  parse_amount_core econDashLiteral raw

/-! ### `split_columns` (identical in `admin_units.py` and `economic.py`) -/

/-- `[col.strip() for col in re.split(r"\s{2,}", line.rstrip()) if col.strip()]` -/
def split_columns (line : String) : List String :=
  (((splitWsRuns (rstripC line.data)).map stripC).filter (· ≠ [])).map String.mk

/-- `has_alpha` from `economic.py`. -/
def has_alpha (text : String) : Bool := text.data.any isAsciiAlpha

/-! ### `NUM_RE = -?\d{1,3}(?:,\d{3})*(?:\.\d+)?`

Matching this pattern at a given position never backtracks: after the
mandatory `\d{1,3}` every remaining part can match the empty string, and when
the leading digit run is longer than three digits every shorter choice of
`\d{1,3}` leaves a digit where `,`/`.`/end-of-pattern is required. -/

/-- Consume `(?:,\d{3})*` greedily, returning (consumed, rest). -/
def commaGroups : List Char → (List Char × List Char)
  | ',' :: a :: b :: c :: rest =>
    if isDig a && isDig b && isDig c then
      let p := commaGroups rest
      (',' :: a :: b :: c :: p.1, p.2)
    else ([], ',' :: a :: b :: c :: rest)
  | l => ([], l)

/-- Consume `(?:\.\d+)?` greedily, returning (consumed, rest). -/
def decPart : List Char → (List Char × List Char)
  | '.' :: rest =>
    let ds := rest.takeWhile isDig
    if ds = [] then ([], '.' :: rest) else ('.' :: ds, rest.dropWhile isDig)
  | l => ([], l)

def numMatchAtCore (sign : List Char) (l1 : List Char) :
    Option (List Char × List Char) :=
  let ds := l1.takeWhile isDig
  let l2 := l1.dropWhile isDig
  if ds = [] then none
  else if 3 < ds.length then
    -- `\d{1,3}` took three digits; the next char is a digit, so no comma
    -- group and no decimal part can follow
    some (sign ++ ds.take 3, ds.drop 3 ++ l2)
  else
    let p := commaGroups l2
    let q := decPart p.2
    some (sign ++ ds ++ p.1 ++ q.1, q.2)

/-- `NUM_RE` attempted at the start of `l`: `some (matched, rest)`. -/
def numMatchAt (l : List Char) : Option (List Char × List Char) :=
  match l with
  | '-' :: t => numMatchAtCore ['-'] t
  | _ => numMatchAtCore [] l

theorem commaGroups_snd_le (l : List Char) : (commaGroups l).2.length ≤ l.length := by
  generalize hn : l.length = n
  induction n using Nat.strong_induction_on generalizing l with
  | _ n ih =>
    rw [commaGroups.eq_def]
    split
    · rename_i a b c rest
      split
      · have hr := ih rest.length (by simp at hn; omega) rest rfl
        simp at hn ⊢
        omega
      · simp at hn ⊢
        omega
    · simp
      omega

theorem decPart_snd_le (l : List Char) : (decPart l).2.length ≤ l.length := by
  rw [decPart.eq_def]
  split
  · rename_i rest
    by_cases h : rest.takeWhile isDig = []
    · simp [h]
    · simp only [h, reduceIte]
      have := length_dropWhile_le isDig rest
      simpa using le_trans this (by simp)
  · simp

theorem numMatchAtCore_rest_lt (sign l1 m r : List Char)
    (h : numMatchAtCore sign l1 = some (m, r)) : r.length < l1.length := by
  have hlen : (l1.takeWhile isDig).length + (l1.dropWhile isDig).length = l1.length := by
    rw [← List.length_append, List.takeWhile_append_dropWhile]
  by_cases hds : l1.takeWhile isDig = []
  · simp [numMatchAtCore, hds] at h
  · have hpos : 0 < (l1.takeWhile isDig).length := List.length_pos.mpr hds
    by_cases h3 : 3 < (l1.takeWhile isDig).length
    · simp only [numMatchAtCore, hds, h3, reduceIte, Option.some.injEq,
        Prod.mk.injEq] at h
      obtain ⟨-, hr⟩ := h
      subst hr
      simp only [List.length_append, List.length_drop]
      omega
    · simp only [numMatchAtCore, hds, h3, reduceIte, Option.some.injEq,
        Prod.mk.injEq] at h
      obtain ⟨-, hr⟩ := h
      subst hr
      have h1 := commaGroups_snd_le (l1.dropWhile isDig)
      have h2 := decPart_snd_le (commaGroups (l1.dropWhile isDig)).2
      omega

theorem numMatchAt_rest_lt (l m r : List Char) (h : numMatchAt l = some (m, r)) :
    r.length < l.length := by
  rw [numMatchAt.eq_def] at h
  split at h
  · rename_i t
    have := numMatchAtCore_rest_lt _ _ _ _ h
    simp only [List.length_cons]
    omega
  · exact numMatchAtCore_rest_lt _ _ _ _ h

/-- `NUM_RE.findall`: leftmost non-overlapping matches.  Fueled structural
recursion; by `numMatchAt_rest_lt` every step consumes at least one
character, so a fuel of `length + 1` is exact. -/
def numFindallF : Nat → List Char → List (List Char)
  | 0, _ => []
  | _ + 1, [] => []
  | fuel + 1, c :: t =>
    match numMatchAt (c :: t) with
    | some (m, r) => m :: numFindallF fuel r
    | none => numFindallF fuel t

def numFindall (l : List Char) : List (List Char) :=
  numFindallF (l.length + 1) l

/-- `NUM_RE.search`: `some (text before the match, text from match.start())`,
or `none` when no position matches. -/
def numSearchSplit : List Char → Option (List Char × List Char)
  | [] => none
  | c :: t =>
    if (numMatchAt (c :: t)).isSome then some ([], c :: t)
    else (numSearchSplit t).map (fun p => (c :: p.1, p.2))

/-! ### `AMOUNT_RE = \d{1,3}(?:,\d{3})+(?:\.\d+)?|\d+\.\d+` (receipts)

At a given position the first alternative is tried first (Python alternation
order), and as analysed for `NUM_RE`, a leading digit run longer than three
makes the first alternative fail outright, while the second alternative
succeeds exactly when the full digit run is followed by `.` and a digit. -/

/-- First alternative `\d{1,3}(?:,\d{3})+(?:\.\d+)?`, given the leading
digit run `ds` and the remainder `l2`. -/
def amtAlt1 (ds l2 : List Char) : Option (List Char × List Char) :=
  if ds = [] || 3 < ds.length then none
  else if (commaGroups l2).1 = [] then none
  else
    some (ds ++ (commaGroups l2).1 ++ (decPart (commaGroups l2).2).1,
          (decPart (commaGroups l2).2).2)

/-- Second alternative `\d+\.\d+`. -/
def amtAlt2 (ds l2 : List Char) : Option (List Char × List Char) :=
  match l2 with
  | '.' :: r2 =>
    if ds = [] then none
    else if r2.takeWhile isDig = [] then none
    else some (ds ++ '.' :: r2.takeWhile isDig, r2.dropWhile isDig)
  | _ => none

def amtMatchAt (l : List Char) : Option (List Char × List Char) :=
  match amtAlt1 (l.takeWhile isDig) (l.dropWhile isDig) with
  | some res => some res
  | none => amtAlt2 (l.takeWhile isDig) (l.dropWhile isDig)

theorem amtAlt1_some (ds l2 m r : List Char) (h : amtAlt1 ds l2 = some (m, r)) :
    ds ≠ [] ∧ r.length ≤ l2.length := by
  unfold amtAlt1 at h
  split at h
  · exact absurd h (by simp)
  · rename_i hcond
    split at h
    · exact absurd h (by simp)
    · simp only [Option.some.injEq, Prod.mk.injEq] at h
      obtain ⟨-, hr⟩ := h
      subst hr
      refine ⟨fun h0 => by simp [h0] at hcond, ?_⟩
      exact le_trans (decPart_snd_le _) (commaGroups_snd_le l2)

theorem amtAlt2_some (ds l2 m r : List Char) (h : amtAlt2 ds l2 = some (m, r)) :
    r.length < l2.length := by
  unfold amtAlt2 at h
  split at h
  · rename_i r2
    split at h
    · exact absurd h (by simp)
    · split at h
      · exact absurd h (by simp)
      · simp only [Option.some.injEq, Prod.mk.injEq] at h
        obtain ⟨-, hr⟩ := h
        subst hr
        have := length_dropWhile_le isDig r2
        simp
        omega
  · exact absurd h (by simp)

theorem amtMatchAt_rest_lt (l m r : List Char) (h : amtMatchAt l = some (m, r)) :
    r.length < l.length := by
  have hlen : (l.takeWhile isDig).length + (l.dropWhile isDig).length = l.length := by
    rw [← List.length_append, List.takeWhile_append_dropWhile]
  unfold amtMatchAt at h
  split at h
  · rename_i res hres
    simp only [Option.some.injEq] at h
    subst h
    obtain ⟨hds, hr⟩ := amtAlt1_some _ _ _ _ hres
    have : 0 < (l.takeWhile isDig).length := List.length_pos.mpr hds
    omega
  · have := amtAlt2_some _ _ _ _ h
    omega

/-- `AMOUNT_RE.findall` (fueled like `numFindallF`; `amtMatchAt_rest_lt`
shows the fuel of `length + 1` is exact). -/
def amtFindallF : Nat → List Char → List (List Char)
  | 0, _ => []
  | _ + 1, [] => []
  | fuel + 1, c :: t =>
    match amtMatchAt (c :: t) with
    | some (m, r) => m :: amtFindallF fuel r
    | none => amtFindallF fuel t

def amtFindall (l : List Char) : List (List Char) :=
  amtFindallF (l.length + 1) l

/-! ### Generic `finditer` over hand-compiled matchers

All matchers used below consume at least one character on success, so a fuel
of `length + 1` steps is exactly enough to reproduce `re.finditer`'s scan
(try the pattern at each position, continue after the end of each match). -/

def finditerF {α : Type} (m : List Char → Option (α × List Char)) :
    Nat → Nat → List Char → List (Nat × α × Nat)
  | 0, _, _ => []
  | fuel + 1, pos, l =>
    match m l with
    | some (a, r) =>
      let e := pos + (l.length - r.length)
      (pos, a, e) :: finditerF m fuel e r
    | none =>
      match l with
      | [] => []
      | _ :: t => finditerF m fuel (pos + 1) t

/-- `re.finditer`: list of `(start, payload, end)` for the successive
non-overlapping leftmost matches. -/
def finditer {α : Type} (m : List Char → Option (α × List Char))
    (l : List Char) : List (Nat × α × Nat) :=
  finditerF m (l.length + 1) 0 l

/-- `finditer` for patterns with a `(?<!\d)` look-behind: the matcher also
receives the character immediately before the current position. -/
def finditerPrevF {α : Type}
    (m : Option Char → List Char → Option (α × List Char)) :
    Nat → Nat → Option Char → List Char → List (Nat × α × Nat)
  | 0, _, _, _ => []
  | fuel + 1, pos, prev, l =>
    match m prev l with
    | some (a, r) =>
      let consumed := l.take (l.length - r.length)
      let e := pos + (l.length - r.length)
      (pos, a, e) :: finditerPrevF m fuel e consumed.getLast? r
    | none =>
      match l with
      | [] => []
      | c :: t => finditerPrevF m fuel (pos + 1) (some c) t

def finditerPrev {α : Type}
    (m : Option Char → List Char → Option (α × List Char))
    (l : List Char) : List (Nat × α × Nat) :=
  finditerPrevF m (l.length + 1) 0 none l

/-! ### Anchored code matchers -/

/-- `^\s*` then the leading digit run: `(digits, rest)`. -/
def leadDigits (l : List Char) : List Char × List Char :=
  let l1 := l.dropWhile isPySpace
  (l1.takeWhile isDig, l1.dropWhile isDig)

/-- `ADMIN_CODE_RE = ^\s*(\d{6,})` — `some code` when the line starts (after
whitespace) with at least six digits. -/
def admin_code_match (line : String) : Option String :=
  let p := leadDigits line.data
  if 6 ≤ p.1.length then some (String.mk p.1) else none

/-- `ECON_CODE_RE = ^\s*(\d{1,8})\s+` as a boolean test: a 1–8 digit run
followed by at least one whitespace character. -/
def econ_code_matches (line : String) : Bool :=
  let p := leadDigits line.data
  decide (1 ≤ p.1.length) && decide (p.1.length ≤ 8) &&
    (match p.2 with
     | c :: _ => isPySpace c
     | [] => false)

/-- `PARENT_CODE_RE = ^\d{6,}0{4,}$`: all digits, total length ≥ 10, and the
last four characters are zeros (the split `\d{6,}` / `0{4,}` exists exactly
under these conditions). -/
def is_parent_code (code : String) : Bool :=
  code.data.all isDig && decide (10 ≤ code.length) &&
    isPrefixC ['0', '0', '0', '0'] code.data.reverse

/-- `^\s*(\d{lo,hi})\s*-\s*(.+)$`: shared shape of `PROGRAM_CODE_RE`
(11–14), `ECON_COL_RE` (8–8), `FUNC_COL_RE` (5–5), `FUND_COL_RE` (2–8) and
`LOC_COL_RE` (8–8).  A digit run longer than `hi` can never match (every
shorter greedy choice leaves a digit where `-`/`\s` is required). -/
def codeDashMatch (lo hi : Nat) (s : String) : Option (String × String) :=
  let l1 := s.data.dropWhile isPySpace
  let ds := l1.takeWhile isDig
  let l2 := l1.dropWhile isDig
  if lo ≤ ds.length && ds.length ≤ hi then
    match l2.dropWhile isPySpace with
    | '-' :: l4 =>
      let l5 := l4.dropWhile isPySpace
      if l5 = [] then
        -- all-whitespace tail: `\s*` backtracks one char so `(.+)` matches it
        match l4 with
        | [] => none
        | _ => some (String.mk ds, String.mk (l4.drop (l4.length - 1)))
      else some (String.mk ds, String.mk l5)
    | _ => none
  else none

/-! ### Literal-and-year matchers for header label inference -/

def eatLit (pat : List Char) (l : List Char) : Option (List Char) :=
  if isPrefixC pat l then some (l.drop pat.length) else none

/-- `\s+` (greedy). -/
def eatWS1 : List Char → Option (List Char)
  | c :: t => if isPySpace c then some (t.dropWhile isPySpace) else none
  | [] => none

/-- `(20\d{2})`. -/
def eatYear : List Char → Option (String × List Char)
  | '2' :: '0' :: a :: b :: t =>
    if isDig a && isDig b then some (String.mk ['2', '0', a, b], t) else none
  | _ => none

/-- First matching alternative of a list of literal words. -/
def eatAlt (alts : List String) (l : List Char) : Option (String × List Char) :=
  match alts with
  | [] => none
  | a :: rest =>
    match eatLit a.data l with
    | some r => some (a, r)
    | none => eatAlt rest l

/-- `\w+` (greedy, at least one). -/
def eatWord (l : List Char) : Option (List Char × List Char) :=
  let w := l.takeWhile isWordChar
  if w = [] then none else some (w, l.dropWhile isWordChar)

def statusWords : List String := ["approved", "proposed", "revised", "final", "original"]

/-- `YEAR_BUDGET_RE = (20\d{2})\s+(Approved|Proposed|Revised|Final|Original)\s+Budget`
on lowered text; payload is the synthesized label `YYYY_<status>_budget`. -/
def yearBudgetM (l : List Char) : Option (String × List Char) :=
  (eatYear l).bind fun p1 =>
  (eatWS1 p1.2).bind fun l2 =>
  (eatAlt statusWords l2).bind fun p2 =>
  (eatWS1 p2.2).bind fun l4 =>
  (eatLit "budget".data l4).map fun l5 =>
  (p1.1 ++ "_" ++ p2.1 ++ "_budget", l5)

/-- `YEAR_STATUS_RE = (20\d{2})\s+(Approved|…|Original)`; the extractor also
labels these matches `YYYY_<status>_budget`. -/
def yearStatusM (l : List Char) : Option (String × List Char) :=
  (eatYear l).bind fun p1 =>
  (eatWS1 p1.2).bind fun l2 =>
  (eatAlt statusWords l2).map fun p2 =>
  (p1.1 ++ "_" ++ p2.1 ++ "_budget", p2.2)

/-- `YEAR_PERFORMANCE_RE = (20\d{2})\s+Performance` → `YYYY_performance`. -/
def yearPerfM (l : List Char) : Option (String × List Char) :=
  (eatYear l).bind fun p1 =>
  (eatWS1 p1.2).bind fun l2 =>
  (eatLit "performance".data l2).map fun l3 =>
  (p1.1 ++ "_performance", l3)

/-- `PERIOD_RE = January\s+to\s+\w+`; label is the matched text lowercased
with spaces replaced by underscores. -/
def periodM (l : List Char) : Option (String × List Char) :=
  (eatLit "january".data l).bind fun l1 =>
  (eatWS1 l1).bind fun l2 =>
  (eatLit "to".data l2).bind fun l3 =>
  (eatWS1 l3).bind fun l4 =>
  (eatWord l4).map fun p =>
  let matched := l.take (l.length - p.2.length)
  (String.mk (matched.map fun c => if c = ' ' then '_' else c), p.2)

/-- `CLIMATE_RE = (20\d{2})\s+Climate\s+Change\s+(Mitigation|Adaptation)\s+Tagging`
→ `YYYY_climate_<kind>`. -/
def climateM (l : List Char) : Option (String × List Char) :=
  (eatYear l).bind fun p1 =>
  (eatWS1 p1.2).bind fun l2 =>
  (eatLit "climate".data l2).bind fun l3 =>
  (eatWS1 l3).bind fun l4 =>
  (eatLit "change".data l4).bind fun l5 =>
  (eatWS1 l5).bind fun l6 =>
  (eatAlt ["mitigation", "adaptation"] l6).bind fun p2 =>
  (eatWS1 p2.2).bind fun l8 =>
  (eatLit "tagging".data l8).map fun l9 =>
  (p1.1 ++ "_climate_" ++ p2.1, l9)

/-- Stable ascending insertion by start offset (`list.sort(key=start)`). -/
def insAsc (x : Nat × String) : List (Nat × String) → List (Nat × String)
  | [] => [x]
  | y :: ys => if y.1 ≤ x.1 then y :: insAsc x ys else x :: y :: ys

def stableSortByStart (l : List (Nat × String)) : List (Nat × String) :=
  l.foldl (fun acc x => insAsc x acc) []

/-- Deduplication preserving first occurrence. -/
def dedupFirstGo (seen : List String) : List String → List String
  | [] => []
  | x :: t => if seen.contains x then dedupFirstGo seen t
              else x :: dedupFirstGo (x :: seen) t

def dedupFirst (l : List String) : List String := dedupFirstGo [] l

/-- Drop the end offsets from `finditer` output (the label-inference passes
only use start offsets). -/
def startsOnly (l : List (Nat × String × Nat)) : List (Nat × String) :=
  l.map fun t => (t.1, t.2.1)

/-! ### `schema.py` — data model

Amounts are modelled as `ℚ`.  `RevenueRow` below carries, besides the fields
declared by the `schema.py` dataclass, the four receipt fields that
`receipts.py` passes as keyword arguments (`administrative_code`,
`administrative_description`, `fund_code`, `fund_description`); the dataclass
in `schema.py` does not declare them (constructing a receipt row would raise
`TypeError` at runtime), but the receipts extractor is modelled as built.
Likewise `ProgrammeRow` carries the `objective` field that
`programme_projects.py` and `pipeline.py` use although the `schema.py`
dataclass omits it. -/

structure Provenance where
  page : Nat
  line_text : String
deriving Repr, DecidableEq

structure ExtractedField (α : Type) where
  value : Option α
  reason : Option String
  provenance : List Provenance
deriving Repr, DecidableEq

def ExtractedField.null {α : Type} (reason : String) : ExtractedField α :=
  ⟨none, some reason, []⟩

def ExtractedField.with_value {α : Type} (v : α) : ExtractedField α :=
  ⟨some v, none, []⟩

def ExtractedField.with_value_prov {α : Type} (v : α) (prov : List Provenance) :
    ExtractedField α :=
  ⟨some v, none, prov⟩

structure AmountItem where
  label : String
  amount : ExtractedField ℚ
deriving Repr, DecidableEq

structure RevenueRow where
  code : ExtractedField String
  category : ExtractedField String
  subcategory : ExtractedField String
  amount : ExtractedField ℚ
  classification : ExtractedField String
  administrative_code : ExtractedField String
  administrative_description : ExtractedField String
  fund_code : ExtractedField String
  fund_description : ExtractedField String
  page : Option Nat
  line_text : Option String
deriving Repr, DecidableEq

structure EconomicExpenditureRow where
  code : ExtractedField String
  category : ExtractedField String
  subcategory : ExtractedField String
  amount : ExtractedField ℚ
  page : Option Nat
  line_text : Option String
deriving Repr, DecidableEq

structure AdministrativeUnit where
  parent_code : ExtractedField String
  parent_name : ExtractedField String
  unit_code : ExtractedField String
  unit_name : ExtractedField String
  amounts : List AmountItem
  page : Nat
  line_text : String
  table_type : String
deriving Repr, DecidableEq

structure MdaExpenditureRow where
  mda_code : ExtractedField String
  mda_name : ExtractedField String
  recurrent_amount : ExtractedField ℚ
  capital_amount : ExtractedField ℚ
  total_amount : ExtractedField ℚ
  administrative_units : List AdministrativeUnit
  page : Option Nat
  line_text : Option String
deriving Repr, DecidableEq

structure ProgrammeRow where
  sector : ExtractedField String
  objective : ExtractedField String
  programme_code : ExtractedField String
  programme : ExtractedField String
  project_name : ExtractedField String
  economic_code : ExtractedField String
  economic_description : ExtractedField String
  function_code : ExtractedField String
  function_description : ExtractedField String
  location_code : ExtractedField String
  location_description : ExtractedField String
  amounts : List AmountItem
  amount_labels : List String
  amount : ExtractedField ℚ
  funding_source : ExtractedField String
  page : Option Nat
  line_text : Option String
deriving Repr, DecidableEq

structure BudgetTotals where
  total_budget : ExtractedField ℚ
  capital_expenditure_total : ExtractedField ℚ
  recurrent_expenditure_total : ExtractedField ℚ
  revenue_total : ExtractedField ℚ
  financing_total : ExtractedField ℚ
  budget_summary_text : ExtractedField String
deriving Repr, DecidableEq

structure DocumentMetadata where
  state_name : ExtractedField String
  state_code : ExtractedField String
  budget_year : ExtractedField String
  document_title : ExtractedField String
  source_file_name : String
  page_count : Int
  currency : ExtractedField String
  extraction_timestamp : String
  engine_version : String
deriving Repr, DecidableEq

structure AppropriationLaw where
  law_text : ExtractedField String
  page_range : ExtractedField String
  total_amount : ExtractedField ℚ
deriving Repr, DecidableEq

structure ExtractionError where
  code : String
  message : String
deriving Repr, DecidableEq

structure AssumptionRow where
  assumption_name : ExtractedField String
  value : ExtractedField String
  unit : ExtractedField String
deriving Repr, DecidableEq

structure ExtractionResult where
  status : String
  errors : List ExtractionError
  metadata : DocumentMetadata
  budget_totals : BudgetTotals
  revenue_breakdown : List RevenueRow
  expenditure_economic : List EconomicExpenditureRow
  expenditure_mda : List MdaExpenditureRow
  administrative_units : List AdministrativeUnit
  programme_projects : List ProgrammeRow
  appropriation_law : AppropriationLaw
  assumptions : List AssumptionRow
deriving Repr, DecidableEq

/-! ### `economic.py` -/

namespace Econ

structure EconomicContext where
  table_type : String
  labels : List String
deriving Repr, DecidableEq

def HEADER_CONTEXT_KEYWORDS : List String :=
  ["approved budget", "final budget", "revised budget", "original budget",
   "performance", "january to", "climate change", "budget"]

/-- `economic.is_header_context_line`.  (The source's trailing
`if ECON_CODE_RE.match(line): return False / return False` returns `False`
on both branches, so only the keyword test is observable.) -/
def is_header_context_line (line : String) : Bool :=
  HEADER_CONTEXT_KEYWORDS.any (fun k => containsCI line k)

/-- `economic.infer_labels`. -/
def infer_labels (header_lines : List String) : List String :=
  let text := String.intercalate " " (header_lines.map pyStrip)
  let lower := collapseWS (lowerC text.data)
  let ms :=
    startsOnly (finditer yearBudgetM lower) ++
    startsOnly (finditer yearStatusM lower) ++
    startsOnly (finditer yearPerfM lower) ++
    startsOnly (finditer periodM lower) ++
    startsOnly (finditer climateM lower)
  if ms = [] then []
  else
    let labels := dedupFirst ((stableSortByStart ms).map (fun p => p.2))
    let revenue_order :=
      ["2024_approved_budget", "2024_final_budget", "2024_performance",
       "2025_approved_budget"]
    if revenue_order.all (fun item => labels.contains item) then
      revenue_order ++ labels.filter (fun item => !(revenue_order.contains item))
    else labels

/-- `economic.select_target_label`. -/
def select_target_label (labels : List String) (target_year : String) :
    Option Nat :=
  let yp := target_year ++ "_"
  match labels.findIdx? (fun lb =>
      isPrefixC yp.data lb.data && containsStr lb "approved") with
  | some idx => some idx
  | none =>
    match labels.findIdx? (fun lb =>
        isPrefixC yp.data lb.data && containsStr lb "proposed") with
    | some idx => some idx
    | none =>
      labels.findIdx? (fun lb =>
        isPrefixC yp.data lb.data && containsStr lb "budget")

/-- `economic.parse_row`: `^\s*(\d{1,8})\s+(.*)$`, then `NUM_RE.search` for
the first numeric token; description is the text before it, amount columns
are `NUM_RE.findall` from it. -/
def parse_row (line : String) : Option (String × String × List String) :=
  let p := leadDigits line.data
  if 1 ≤ p.1.length && p.1.length ≤ 8 then
    match p.2 with
    | c :: t =>
      if isPySpace c then
        let rest := t.dropWhile isPySpace
        match numSearchSplit rest with
        | none => none
        | some q =>
          some (String.mk p.1, String.mk (stripC q.1),
                (numFindall q.2).map String.mk)
      else none
    | [] => none
  else none

/-- `HEADER_RE = ^\s*Code\s+Economic\b` (`re.search` of an anchored pattern
coincides with `re.match`). -/
def header_matches (line : String) : Bool :=
  let l1 := (lowerC line.data).dropWhile isPySpace
  match eatLit "code".data l1 with
  | none => false
  | some l2 =>
    match eatWS1 l2 with
    | none => false
    | some l3 =>
      isPrefixC "economic".data l3 &&
        (match l3.drop 8 with
         | [] => true
         | c :: _ => !(isWordChar c))

def revenue_heading (line : String) : Bool :=
  containsCI line "revenue by economic classification"

def expenditure_heading (line : String) : Bool :=
  containsCI line "expenditure by economic classification"

structure EconState where
  revenue_rows : List RevenueRow
  expenditure_rows : List EconomicExpenditureRow
  current_section : Option String
  last_section : Option String
  context : Option EconomicContext
deriving Repr, DecidableEq

/-- Row-emission part of the `extract_economic_rows` loop body (the branch
guarded by `current_section and context and ECON_CODE_RE.match(line)`). -/
def econEmit (page_index : Nat) (line : String) (target_year : String)
    (sect : String) (ctx : EconomicContext) (st : EconState) : EconState :=
  match parse_row line with
  | none => st
  | some (code, desc, amount_columns) =>
    if desc = "" || !(has_alpha desc) then st
    else if ctx.labels = [] then st
    else
      match select_target_label ctx.labels target_year with
      | none => st
      | some target_index =>
        if target_index ≥ amount_columns.length then st
        else
          match parse_amount_econ (amount_columns.getD target_index "") with
          | none => st
          | some amount_value =>
            let amount_field := ExtractedField.with_value_prov amount_value
              [⟨page_index, pyStrip line⟩]
            let code_field := ExtractedField.with_value code
            let category_field := ExtractedField.with_value desc
            let subcategory_field : ExtractedField String :=
              ExtractedField.null "not_extracted"
            if ctx.table_type = "revenue" then
              { st with revenue_rows := st.revenue_rows ++
                  [{ code := code_field
                     category := category_field
                     subcategory := subcategory_field
                     amount := amount_field
                     classification := ExtractedField.with_value "economic"
                     administrative_code := ExtractedField.null "not_extracted"
                     administrative_description := ExtractedField.null "not_extracted"
                     fund_code := ExtractedField.null "not_extracted"
                     fund_description := ExtractedField.null "not_extracted"
                     page := some page_index
                     line_text := some (pyStrip line) }] }
            else
              { st with expenditure_rows := st.expenditure_rows ++
                  [{ code := code_field
                     category := category_field
                     subcategory := subcategory_field
                     amount := amount_field
                     page := some page_index
                     line_text := some (pyStrip line) }] }

/-- One iteration of the `extract_economic_rows` line loop.  `prev` is the
previous line of the page (if any), `ahead` the lines after the current
one. -/
def econStep (page_index : Nat) (target_year : String) (prev : Option String)
    (line : String) (ahead : List String) (st : EconState) : EconState :=
  if revenue_heading line then
    { st with current_section := some "revenue", last_section := some "revenue",
              context := none }
  else if expenditure_heading line then
    { st with current_section := some "expenditure",
              last_section := some "expenditure", context := none }
  else if containsStr line "Approved Budget -" && !(header_matches line) then
    -- the nested revenue/expenditure re-test is always true on this path
    { st with current_section := none, context := none }
  else if header_matches line then
    let sect :=
      match st.current_section with
      | none => st.last_section
      | some s => some s
    let header_lines :=
      (match prev with
       | some p => if is_header_context_line p then [p] else []
       | none => []) ++
      [line] ++ (ahead.take 2).filter is_header_context_line
    let labels := infer_labels header_lines
    match sect with
    | some s =>
      { st with current_section := some s,
                context := some ⟨s, labels⟩ }
    | none => { st with current_section := none }
  else
    match st.current_section, st.context with
    | some sect, some ctx =>
      if econ_code_matches line then
        econEmit page_index line target_year sect ctx st
      else st
    | _, _ => st

def econLines (page_index : Nat) (target_year : String) :
    Option String → List String → EconState → EconState
  | _, [], st => st
  | prev, line :: rest, st =>
    econLines page_index target_year (some line) rest
      (econStep page_index target_year prev line rest st)

def econPages (target_year : String) : Nat → List String → EconState → EconState
  | _, [], st => st
  | idx, pg :: rest, st =>
    econPages target_year (idx + 1) rest
      (econLines idx target_year none (pySplitlines pg) { st with context := none })

/-- `economic.extract_economic_rows` as shipped in `src/economic.py`: it
returns the two row lists and performs no same-code conflict detection (the
module defines no `EconomicConflict`, although `validation.py` imports one
from it and `pipeline.py` unpacks a third component from this function's
result). -/
def extract_economic_rows (pages : List String) (target_year : String) :
    List RevenueRow × List EconomicExpenditureRow :=
  let final := econPages target_year 1 pages ⟨[], [], none, none, none⟩
  (final.revenue_rows, final.expenditure_rows)

end Econ

/-- Modelled from the spec: `pipeline.py` and `validation.py` import a
`ParentRow` from `engine.admin_units` and unpack a parent-row list as the
second component of `extract_admin_units`'s result, but `src/admin_units.py`
defines neither.  Spec §3 describes a parent row as `{code, name, amounts,
page, line_text, table_type}` collected for codes ending in ≥ 4 zeros. -/
structure ParentRow where
  code : String
  name : String
  amounts : List AmountItem
  page : Nat
  line_text : String
  table_type : String
deriving Repr, DecidableEq

/-! ### `admin_units.py` -/

namespace Admin

structure HeaderContext where
  labels : List String
  table_type : String
deriving Repr, DecidableEq

def HEADER_KEYWORDS : List String :=
  ["administrative unit", "admin description", "adminstrative unit"]

def HEADER_CONTEXT_KEYWORDS : List String :=
  ["personnel", "overhead", "total recurrent", "capital", "total expenditure",
   "recurrent", "development", "other", "federation account",
   "independent revenue", "aids and grants", "fund receipts", "total revenue",
   "igr"]

def is_header_line (line : String) : Bool :=
  containsCI line "code" && HEADER_KEYWORDS.any (fun k => containsCI line k)

def is_header_context_line (line : String) : Bool :=
  if (admin_code_match line).isSome then false
  else HEADER_CONTEXT_KEYWORDS.any (fun k => containsCI line k)

/-- `word1\s+word2\s+…` matcher for the fallback label patterns. -/
def wordsM : List String → List Char → Option (List Char)
  | [], l => some l
  | [w], l => eatLit w.data l
  | w :: rest, l => (eatLit w.data l).bind fun l1 => (eatWS1 l1).bind (wordsM rest)

def mkLabelM (label : String) (words : List String) (l : List Char) :
    Option (String × List Char) :=
  (wordsM words l).map (fun r => (label, r))

def label_patterns : List (String × List String) :=
  [("total_expenditure", ["total", "expenditure"]),
   ("total_recurrent", ["total", "recurrent"]),
   ("independent_revenue", ["independent", "revenue"]),
   ("federation_account_revenues", ["federation", "account"]),
   ("capital_development_fund_receipts", ["fund", "receipts"]),
   ("aids_and_grants", ["aids", "and", "grants"]),
   ("personnel", ["personnel"]),
   ("overhead", ["overhead"]),
   ("capital", ["capital"]),
   ("recurrent", ["recurrent"]),
   ("development", ["development"]),
   ("other", ["other"]),
   ("total_revenue", ["total", "revenue"])]

/-- `admin_units.infer_labels`.  The source tags unrecognized headers with
`unknown_<sha1-prefix>`; that signature is observed only through
`startswith("unknown")`, so the model uses the constant `"unknown"`. -/
def infer_labels (header_lines : List String) : HeaderContext :=
  let lower := collapseWS (lowerC
    (String.intercalate " " (header_lines.map pyStrip)).data)
  let has := fun (pat : String) => containsSub lower pat.data
  if has "personnel" && has "overhead" && has "total recurrent" &&
      has "capital" && has "total expenditure" then
    ⟨["personnel", "overhead", "total_recurrent", "capital",
      "total_expenditure"], "expenditure_mda"⟩
  else if has "personnel expenditure" && has "capital expenditure" &&
      has "total expenditure" then
    ⟨["personnel", "overhead", "total_recurrent", "capital",
      "total_expenditure"], "expenditure_mda"⟩
  else if has "recurrent" && has "development" && has "other" then
    ⟨["recurrent", "development", "other"], "expenditure_admin"⟩
  else if has "federation account" && has "independent revenue" &&
      has "aids and grants" && has "fund receipts" && has "total revenue" then
    ⟨["federation_account_revenues", "independent_revenue", "aids_and_grants",
      "capital_development_fund_receipts", "total_revenue"], "revenue_mda"⟩
  else
    let ordered := label_patterns.foldl
      (fun acc pr => acc ++ startsOnly (finditer (mkLabelM pr.1 pr.2) lower)) []
    if ordered ≠ [] then
      ⟨dedupFirst ((stableSortByStart ordered).map (fun p => p.2)), "unknown"⟩
    else ⟨[], "unknown"⟩

/-- `admin_units.parse_row`. -/
def parse_row (line : String) : Option (String × String × List String) :=
  match split_columns line with
  | [] => none
  | col0 :: restCols =>
    match admin_code_match col0 with
    | none => none
    | some code =>
      let name := pyStrip (String.mk (col0.data.drop code.length))
      if name = "" then
        match restCols with
        | c1 :: c2s => some (code, pyStrip c1, c2s)
        | [] => some (code, name, restCols)
      else some (code, name, restCols)

def rstripZeros (l : List Char) : List Char :=
  (l.reverse.dropWhile (fun c => c = '0')).reverse

/-- `admin_units.find_parent_code`: longest right-stripped-zero parent whose
stem starts the unit code; ties keep the first-inserted parent (Python's
stable `sorted(..., reverse=True)[0]`). -/
def find_parent_code (unit_code : String) (parent_codes : List String) :
    Option String :=
  let candidates := parent_codes.filterMap (fun parent =>
    let stem := rstripZeros parent.data
    if stem ≠ [] && isPrefixC stem unit_code.data then
      some (stem.length, parent)
    else none)
  match candidates with
  | [] => none
  | c :: rest =>
    some (rest.foldl (fun best x => if best.1 < x.1 then x else best) c).2

/-- Python `dict[k] = v`: in-place value update, insertion order kept. -/
def dictInsert (d : List (String × String)) (k v : String) :
    List (String × String) :=
  match d with
  | [] => [(k, v)]
  | (k', v') :: rest =>
    if k' = k then (k, v) :: rest else (k', v') :: dictInsert rest k v

def ADMIN_ALLOWED : List String :=
  ["expenditure_mda", "revenue_mda", "expenditure_admin"]

/-- The amount-attachment loop of `extract_admin_units`. -/
def mkAmounts (ctxLabels : List String) (amount_columns : List String)
    (page_index : Nat) (line : String) : List AmountItem :=
  let labels :=
    if ctxLabels = [] then
      (List.range amount_columns.length).map
        (fun i => "amount_" ++ toString (i + 1))
    else ctxLabels
  let max_len := max labels.length amount_columns.length
  (List.range max_len).map (fun idx =>
    let label := labels.getD idx ("amount_" ++ toString (idx + 1))
    let raw_value := amount_columns.getD idx ""
    match parse_amount_admin raw_value with
    | none => ⟨label, ExtractedField.null "missing_amount"⟩
    | some v =>
      ⟨label, ExtractedField.with_value_prov v [⟨page_index, pyStrip line⟩]⟩)

structure AdminState where
  units : List AdministrativeUnit
  parents : List (String × String)
  seen : List (String × String)
  ctx : Option HeaderContext
  /-- Modelled from the spec: the `ParentRow` list that `pipeline.py`
  expects `extract_admin_units` to return; collected at the parent-code
  branch, it does not influence the two components the source returns. -/
  parent_rows : List ParentRow
deriving Repr, DecidableEq

/-- The candidate-row branch of the `extract_admin_units` loop. -/
def adminRowStep (page_index : Nat) (line : String) (ctx : HeaderContext)
    (st : AdminState) : AdminState :=
  match parse_row line with
  | none => st
  | some (code, name, amount_columns) =>
    if name = "" then st
    else if is_parent_code code then
      { st with parents := dictInsert st.parents code name,
                parent_rows := st.parent_rows ++
                  [{ code := code, name := name
                     amounts := mkAmounts ctx.labels amount_columns page_index line
                     page := page_index, line_text := pyStrip line
                     table_type := ctx.table_type }] }
    else
      let amounts := mkAmounts ctx.labels amount_columns page_index line
      if amounts.all (fun item => item.amount.value.isNone) then st
      else if amounts.any (fun item => item.amount.value.isNone) then st
      else
        let parentFields :=
          match find_parent_code code (st.parents.map Prod.fst) with
          | some parent_code =>
            let parent_name := ((st.parents.find?
              (fun p : String × String => p.1 = parent_code)).map Prod.snd).getD ""
            (ExtractedField.with_value parent_code,
             ExtractedField.with_value parent_name)
          | none =>
            ((ExtractedField.null "parent_not_found" : ExtractedField String),
             (ExtractedField.null "parent_not_found" : ExtractedField String))
        let unit : AdministrativeUnit :=
          { parent_code := parentFields.1
            parent_name := parentFields.2
            unit_code := ExtractedField.with_value code
            unit_name := ExtractedField.with_value name
            amounts := amounts
            page := page_index
            line_text := pyStrip line
            table_type := ctx.table_type }
        if st.seen.contains (ctx.table_type, code) then st
        else { st with units := st.units ++ [unit],
                        seen := st.seen ++ [(ctx.table_type, code)] }

/-- One iteration of the `extract_admin_units` line loop. -/
def adminStep (page_index : Nat) (prev : Option String) (line : String)
    (ahead : List String) (st : AdminState) : AdminState :=
  if stripC line.data = [] then st
  else if (stripC line.data).all isDig then st
  else if is_header_line line then
    let buffer :=
      (match prev with
       | some p => if is_header_context_line p then [p] else []
       | none => []) ++
      [line] ++ (ahead.take 2).filter is_header_context_line
    let hc := infer_labels buffer
    let newCtx :=
      if isPrefixC "unknown".data hc.table_type.data then none
      else if !(ADMIN_ALLOWED.contains hc.table_type) then none
      else some hc
    { st with ctx := newCtx }
  else
    match st.ctx with
    | none => st
    | some ctx =>
      if (admin_code_match line).isSome then
        adminRowStep page_index line ctx st
      else st

def adminLines (page_index : Nat) :
    Option String → List String → AdminState → AdminState
  | _, [], st => st
  | prev, line :: rest, st =>
    adminLines page_index (some line) rest
      (adminStep page_index prev line rest st)

def adminPages : Nat → List String → AdminState → AdminState
  | _, [], st => st
  | idx, pg :: rest, st =>
    adminPages (idx + 1) rest
      (adminLines idx none (pySplitlines pg) { st with ctx := none })

/-- `admin_units.extract_admin_units`: returns the accepted units and the
parent-code → parent-name mapping (a two-component result in the source,
although `pipeline.py` unpacks three components from it). -/
def extract_admin_units (pages : List String) :
    List AdministrativeUnit × List (String × String) :=
  let final := adminPages 1 pages ⟨[], [], [], none, []⟩
  (final.units, final.parents)

/-- Modelled from the spec: the three-component
`admin_units, parent_rows, _` result that `pipeline.py` destructures
(`src/admin_units.py` returns only two components). -/
def extract_admin_units_full (pages : List String) :
    List AdministrativeUnit × List ParentRow × List (String × String) :=
  let final := adminPages 1 pages ⟨[], [], [], none, []⟩
  (final.units, final.parent_rows, final.parents)

end Admin

/-! ### `programme_projects.py` -/

namespace Prog

/-- `\b<word>\b` search with `re.IGNORECASE` (the words used start and end
with word characters, so the boundary tests reduce to the neighbours). -/
def searchWordBGo (pat : List Char) : Option Char → List Char → Bool
  | _, [] => false
  | prev, c :: t =>
    (isPrefixC pat (c :: t) &&
      (match prev with
       | some pc => !(isWordChar pc)
       | none => true) &&
      (match (c :: t).drop pat.length with
       | [] => true
       | nc :: _ => !(isWordChar nc))) ||
    searchWordBGo pat (some c) t

def searchWordCI (s : String) (pat : String) : Bool :=
  searchWordBGo pat.data none (lowerC s.data)

def containsDigit (s : String) : Bool := s.data.any isDig

/-- `OBJECTIVE_LINE_RE = ^[A-Za-z].{0,80}\s-\s[A-Za-z].*$` as a boolean. -/
def objective_line_matches (line : String) : Bool :=
  match line.data with
  | [] => false
  | c0 :: rest =>
    isAsciiAlpha c0 &&
    (List.range 81).any (fun k =>
      match rest.drop k with
      | w1 :: '-' :: w2 :: a :: _ =>
        isPySpace w1 && isPySpace w2 && isAsciiAlpha a
      | _ => false)

def parse_program_line (line : String) : Option (String × String) :=
  (codeDashMatch 11 14 line).map (fun p => (p.1, pyStrip p.2))

def parse_code_desc (lo hi : Nat) (value : String) : Option (String × String) :=
  (codeDashMatch lo hi value).map (fun p => (p.1, pyStrip p.2))

def econ_col_matches (value : String) : Bool := (codeDashMatch 8 8 value).isSome

def HEADER_CONTEXT_KEYWORDS : List String :=
  ["full year actuals", "revised budget", "draft budget", "approved budget",
   "adjustments", "out-year estimate", "performance", "january to"]

def is_header_context_line (line : String) : Bool :=
  HEADER_CONTEXT_KEYWORDS.any (fun k => containsCI line k)

def progPatM (lit : String) (label : String) (l : List Char) :
    Option (String × List Char) :=
  (eatYear l).bind fun p1 =>
  (eatWS1 p1.2).bind fun l2 =>
  (eatLit lit.data l2).map fun l3 =>
  (p1.1 ++ "_" ++ label, l3)

def prog_patterns : List (String × String) :=
  [("full year actuals", "full_year_actuals"),
   ("revised budget", "revised_budget"),
   ("approved budget", "approved_budget"),
   ("adjustments", "adjustments"),
   ("out-year estimate", "out_year_estimate")]

/-- `programme_projects.infer_labels`. -/
def infer_labels (header_lines : List String) : List String :=
  let lower := collapseWS (lowerC
    (String.intercalate " " (header_lines.map pyStrip)).data)
  let ms := prog_patterns.foldl
    (fun acc pr => acc ++ startsOnly (finditer (progPatM pr.1 pr.2) lower)) []
  if ms = [] then []
  else dedupFirst ((stableSortByStart ms).map (fun p => p.2))

def fund_header_col (col : String) : Bool :=
  containsCI col "fund code" || containsCI col "funding source"

/-- `_is_short_label`. -/
def is_short_label (line : String) : Bool :=
  let cleaned := String.mk (collapseWS (stripC line.data))
  if cleaned = "" then false
  else if ["programme", "project"].any (fun t => containsCI cleaned t) then false
  else if 60 < cleaned.length then false
  else
    let words := cleaned.data.splitOn ' '
    1 ≤ words.length && words.length ≤ 6

/-- `_trim_label`. -/
def trim_label (line : String) : String :=
  match splitWsRuns (stripC line.data) with
  | [] => ""
  | f :: _ => String.mk f

structure ProgState where
  rows : List ProgrammeRow
  current_program_code : Option String
  current_program_desc : String
  program_continuation : List String
  project_buffer : List String
  labels : List String
  target_index : Option Nat
  has_fund_column : Bool
  current_sector : Option String
  current_objective : Option String
deriving Repr, DecidableEq

/-- The amount-pairing loop: pairs `labels_for_row` with `amount_cols`,
aborting on the first null parse (`valid = False`); also extracts the target
column's value when `use_target`. -/
def progAmountsGo (amount_cols : List String) (use_target : Bool)
    (target_index : Option Nat) (page_index : Nat) (line : String) :
    Nat → List String → List AmountItem → Option ℚ →
      Option (List AmountItem × Option ℚ)
  | _, [], acc, av => some (acc, av)
  | idx, label :: rest, acc, av =>
    match parse_amount_econ (amount_cols.getD idx "") with
    | none => none
    | some v =>
      let item : AmountItem :=
        ⟨label, ExtractedField.with_value_prov v [⟨page_index, pyStrip line⟩]⟩
      let av' := if use_target && target_index = some idx then some v else av
      progAmountsGo amount_cols use_target target_index page_index line
        (idx + 1) rest (acc ++ [item]) av'

def progAmounts (labels_for_row : List String) (amount_cols : List String)
    (use_target : Bool) (target_index : Option Nat) (page_index : Nat)
    (line : String) : Option (List AmountItem × Option ℚ) :=
  progAmountsGo amount_cols use_target target_index page_index line
    0 labels_for_row [] none

/-- An early `return`-style guard of the emission block: `none` (abort) when
the condition holds, `some ()` (continue) otherwise. -/
def progGuard (b : Bool) : Option Unit := if b then none else some ()

/-- Emission part of the programme loop (reached with an economic column at
`econ_index` and a current programme code): the row built from the line, or
`none` when any of the guards of the source's emission block fails. -/
def progMkRow (page_index : Nat) (line : String) (columns : List String)
    (econ_index : Nat) (program_code : String) (st : ProgState) :
    Option ProgrammeRow :=
  let econ_col := columns.getD econ_index ""
  let func_col := columns.getD (econ_index + 1) ""
  let fund_col := if st.has_fund_column then columns.getD (econ_index + 2) "" else ""
  let loc_col :=
    if st.has_fund_column then columns.getD (econ_index + 3) ""
    else columns.getD (econ_index + 2) ""
  let amount_cols :=
    if st.has_fund_column then columns.drop (econ_index + 4)
    else columns.drop (econ_index + 3)
  let fund_parsed := if st.has_fund_column then parse_code_desc 2 8 fund_col else none
  (parse_code_desc 8 8 econ_col).bind fun econP =>
  (parse_code_desc 5 5 func_col).bind fun funcP =>
  (parse_code_desc 8 8 loc_col).bind fun locP =>
  (progGuard (st.has_fund_column && fund_parsed.isNone)).bind fun _ =>
    let pairing :=
      if amount_cols.length ≠ st.labels.length then
        ((List.range amount_cols.length).map
          (fun i => "amount_" ++ toString (i + 1)), false)
      else (st.labels, true)
    (progAmounts pairing.1 amount_cols pairing.2 st.target_index
        page_index line).bind fun amountsAv =>
    let program_desc := String.mk (stripC (collapseWS
      (String.intercalate " "
        (st.current_program_desc :: st.program_continuation)).data))
    let project_desc := pyStrip (String.intercalate " " st.project_buffer)
    (progGuard (program_desc == "" || project_desc == "")).bind fun _ =>
      some
        { sector :=
            match st.current_sector with
            | some sec => ExtractedField.with_value_prov sec
                [⟨page_index, pyStrip line⟩]
            | none => ExtractedField.null "not_extracted"
          objective :=
            match st.current_objective with
            | some ob => ExtractedField.with_value_prov ob
                [⟨page_index, pyStrip line⟩]
            | none => ExtractedField.null "not_extracted"
          programme_code := ExtractedField.with_value program_code
          programme := ExtractedField.with_value program_desc
          project_name := ExtractedField.with_value project_desc
          economic_code := ExtractedField.with_value econP.1
          economic_description := ExtractedField.with_value econP.2
          function_code := ExtractedField.with_value funcP.1
          function_description := ExtractedField.with_value funcP.2
          location_code := ExtractedField.with_value locP.1
          location_description := ExtractedField.with_value locP.2
          amounts := amountsAv.1
          amount_labels := pairing.1
          amount :=
            match amountsAv.2 with
            | some v => ExtractedField.with_value_prov v
                [⟨page_index, pyStrip line⟩]
            | none => ExtractedField.null "not_extracted"
          funding_source :=
            match fund_parsed with
            | some fp => ExtractedField.with_value_prov
                (fp.1 ++ " - " ++ fp.2) [⟨page_index, pyStrip line⟩]
            | none => ExtractedField.null "not_extracted"
          page := some page_index
          line_text := some (pyStrip line) }

def progEmit (page_index : Nat) (line : String) (columns : List String)
    (econ_index : Nat) (program_code : String) (st : ProgState) : ProgState :=
  match progMkRow page_index line columns econ_index program_code st with
  | none => st
  | some row =>
    { st with rows := st.rows ++ [row],
              current_program_code := none,
              current_program_desc := "",
              program_continuation := [],
              project_buffer := [] }

/-- One iteration of the programme line loop. -/
def progStep (page_index : Nat) (target_year : String) (prev : Option String)
    (line : String) (ahead : List String) (st : ProgState) : ProgState :=
  if containsCI line "programme code and programme description" &&
      containsCI line "project description" then
    let header_lines :=
      (match prev with
       | some p => if is_header_context_line p then [p] else []
       | none => []) ++
      [line] ++ (ahead.take 2).filter is_header_context_line
    let labels := infer_labels header_lines
    let target_index := Econ.select_target_label labels target_year
    let header_columns := split_columns line
    { st with labels := labels, target_index := target_index,
              has_fund_column := header_columns.any fund_header_col,
              current_program_code := none, current_program_desc := "",
              program_continuation := [], project_buffer := [],
              current_sector := none, current_objective := none }
  else if st.labels = [] || st.target_index.isNone then st
  else if stripC line.data = [] ||
      lowerC (stripC line.data) = "total".data then st
  else
    let isProg := (parse_program_line line).isSome
    let isEconLine := econ_col_matches line
    if !isProg && !isEconLine &&
        searchWordCI line "sector" && !(containsDigit line) &&
        is_short_label line then
      { st with current_sector := some (trim_label line) }
    else if !isProg && !isEconLine &&
        searchWordCI line "objective" && !(containsDigit line) &&
        is_short_label line then
      { st with current_objective := some (trim_label line) }
    else if !isProg && !isEconLine &&
        objective_line_matches line && !(containsDigit line) &&
        is_short_label line then
      { st with current_objective := some (trim_label line) }
    else
      let program_line := parse_program_line line
      let columns := split_columns line
      let econ_index := columns.findIdx? econ_col_matches
      match program_line with
      | some pl =>
        let pcd :=
          match columns with
          | col0 :: _ =>
            if col0 ≠ line then
              match parse_program_line col0 with
              | some parsed => parsed
              | none => pl
            else pl
          | [] => pl
        let buf :=
          if 1 < columns.length then
            match econ_index with
            | none => [columns.getD 1 ""]
            | some ei => (columns.drop 1).take (ei - 1)
          else []
        let st' := { st with current_program_code := some pcd.1,
                             current_program_desc := pcd.2,
                             program_continuation := [],
                             project_buffer := buf }
        match econ_index with
        | none => st'
        | some ei => progEmit page_index line columns ei pcd.1 st'
      | none =>
        match econ_index with
        | none =>
          match st.current_program_code with
          | none => st
          | some _ =>
            let st' :=
              if 2 ≤ columns.length then
                { st with
                    program_continuation :=
                      st.program_continuation ++ [columns.getD 0 ""],
                    project_buffer := st.project_buffer ++ [columns.getD 1 ""] }
              else
                match columns with
                | [] => st
                | c0 :: _ =>
                  if st.project_buffer = [] then
                    { st with program_continuation :=
                        st.program_continuation ++ [c0] }
                  else
                    { st with project_buffer := st.project_buffer ++ [c0] }
            match columns with
            | [] => st'
            | c0 :: _ =>
              if searchWordCI c0 "objective" && !(containsDigit c0) &&
                  is_short_label c0 then
                { st' with current_objective := some (trim_label c0) }
              else st'
        | some ei =>
          match st.current_program_code with
          | none => st
          | some pc => progEmit page_index line columns ei pc st

def progLines (page_index : Nat) (target_year : String) :
    Option String → List String → ProgState → ProgState
  | _, [], st => st
  | prev, line :: rest, st =>
    progLines page_index target_year (some line) rest
      (progStep page_index target_year prev line rest st)

def progPages (target_year : String) : Nat → List String → ProgState → ProgState
  | _, [], st => st
  | idx, pg :: rest, st =>
    progPages target_year (idx + 1) rest
      (progLines idx target_year none (pySplitlines pg) st)

/-- `programme_projects.extract_programme_projects`. -/
def extract_programme_projects (pages : List String) (target_year : String) :
    List ProgrammeRow :=
  (progPages target_year 1 pages
    ⟨[], none, "", [], [], [], none, false, none, none⟩).rows

end Prog

/-! ### `receipts.py` -/

namespace Rcpt

/-- `(?<!\d)(\d{lo,hi})(?!\d)\s*-\s*([^\d]{2,80})` attempted at one position
(`prev` is the character before it, for the look-behind).  When the
whitespace after `-` runs into too few description characters, `\s*`
backtracks just enough to leave the group its minimum of two. -/
def receiptCodeMatchAt (lo hi : Nat) (prev : Option Char) (l : List Char) :
    Option ((String × String) × List Char) :=
  if (match prev with
      | some c => isDig c
      | none => false) then none
  else
    let ds := l.takeWhile isDig
    if lo ≤ ds.length && ds.length ≤ hi then
      match (l.dropWhile isDig).dropWhile isPySpace with
      | '-' :: l4 =>
        let m := (l4.takeWhile isPySpace).length
        let k := (l4.takeWhile (fun c => !(isDig c))).length
        if k < 2 then none
        else
          let j := min m (k - 2)
          let desc := ((l4.drop j).takeWhile (fun c => !(isDig c))).take 80
          some ((String.mk ds, String.mk desc), (l4.drop j).drop desc.length)
      | _ => none
    else none

def rcptPatM (kw : String) (label : String) (optBudget : Bool) (l : List Char) :
    Option (String × List Char) :=
  (eatYear l).bind fun p1 =>
  (eatWS1 p1.2).bind fun l2 =>
  (eatLit kw.data l2).map fun l3 =>
  let l4 :=
    if optBudget then
      match (eatWS1 l3).bind (eatLit "budget".data) with
      | some r => r
      | none => l3
    else l3
  (p1.1 ++ "_" ++ label, l4)

def rcpt_patterns : List (String × String × Bool) :=
  [("approved", "approved_budget", true),
   ("revised", "revised_budget", true),
   ("original", "original_budget", true),
   ("final", "final_budget", true),
   ("performance", "performance", false)]

/-- `_infer_receipt_labels`. -/
def infer_receipt_labels (header_text : String) : List String :=
  let lower := collapseWS (lowerC header_text.data)
  let ms := rcpt_patterns.foldl
    (fun acc pr =>
      acc ++ startsOnly (finditer (rcptPatM pr.1 pr.2.1 pr.2.2) lower)) []
  dedupFirst ((stableSortByStart ms).map (fun p => p.2))

/-- `_select_label_index`. -/
def select_label_index (labels : List String) (target_year : String) :
    Option Nat :=
  if labels = [] then none
  else
    match labels.findIdx? (fun lb =>
        isPrefixC target_year.data lb.data && containsStr lb "approved") with
    | some idx => some idx
    | none => labels.findIdx? (fun lb => isPrefixC target_year.data lb.data)

/-- `_clean_desc`. -/
def clean_desc (text : String) : String :=
  match splitWsRuns (stripC text.data) with
  | [] => ""
  | f :: _ => String.mk f

structure ReceiptBlock where
  receipt_desc : String
  admin_parsed : Option (String × String)
  econ_parsed : String × String
  fund_parsed : String × String
  amounts : List String
deriving Repr, DecidableEq

/-- `_parse_receipt_block`. -/
def parse_receipt_block (text : String) : Option ReceiptBlock :=
  let tl := text.data
  let econ_matches := finditerPrev (receiptCodeMatchAt 6 8) tl
  let fund_matches := finditerPrev (receiptCodeMatchAt 2 6) tl
  let admin_matches := finditerPrev (receiptCodeMatchAt 10 14) tl
  match econ_matches, fund_matches with
  | [], _ => none
  | _, [] => none
  | econ0 :: _, fund0 :: fundRest =>
    -- matches are produced in ascending start order, so `min(key=start)` is
    -- the head and `fund_matches[-1]` the last element
    let fund_after := (fund0 :: fundRest).filter (fun f => econ0.2.2 < f.1)
    let fund_match :=
      match fund_after with
      | f :: _ => f
      | [] => (fund0 :: fundRest).getLast (by simp)
    let admin_match : Option (Nat × (String × String) × Nat) :=
      match admin_matches with
      | [] => none
      | a0 :: aRest =>
        some (aRest.foldl
          (fun (best x : Nat × (String × String) × Nat) =>
            if best.2.1.1.length < x.2.1.1.length then x else best) a0)
    let receipt_desc := pyStrip (String.mk (tl.take econ0.1))
    if receipt_desc.length < 6 then none
    else if Prog.containsDigit receipt_desc then none
    else
      let amounts := amtFindall (tl.drop fund_match.2.2)
      if amounts = [] then none
      else
        some { receipt_desc := receipt_desc
               admin_parsed := admin_match.map (fun a => a.2.1)
               econ_parsed := econ0.2.1
               fund_parsed := fund_match.2.1
               amounts := amounts.map String.mk }

/-- Row-emission part of the `extract_receipts` line loop (reached inside a
receipt table with labels and a target index): the parsed block turned into a
`RevenueRow`, or `none` when one of the source's skip guards fires. -/
def rcptMkRow (page_index : Nat) (line combined : String)
    (labels : List String) (target_index : Nat) : Option RevenueRow :=
  (parse_receipt_block combined).bind fun blk =>
  (Prog.progGuard (decide (blk.amounts.length < labels.length))).bind fun _ =>
  let amount_cols := blk.amounts.drop (blk.amounts.length - labels.length)
  (Prog.progGuard (decide (amount_cols.length ≤ target_index))).bind fun _ =>
  (parse_amount_econ (amount_cols.getD target_index "")).bind fun amount_value =>
  some
    { code := ExtractedField.with_value blk.econ_parsed.1
      category := ExtractedField.with_value blk.receipt_desc
      subcategory := ExtractedField.null "not_extracted"
      amount := ExtractedField.with_value_prov amount_value
        [⟨page_index, pyStrip line⟩]
      classification := ExtractedField.with_value "receipt"
      administrative_code :=
        match blk.admin_parsed with
        | some a => ExtractedField.with_value a.1
        | none => ExtractedField.null "not_extracted"
      administrative_description :=
        match blk.admin_parsed with
        | some a => ExtractedField.with_value (clean_desc a.2)
        | none => ExtractedField.null "not_extracted"
      fund_code := ExtractedField.with_value blk.fund_parsed.1
      fund_description :=
        ExtractedField.with_value (clean_desc blk.fund_parsed.2)
      page := some page_index
      line_text := some (pyStrip line) }

structure RcptState where
  rows : List RevenueRow
  labels : List String
  target_index : Option Nat
  in_receipt_table : Bool
deriving Repr, DecidableEq

/-- One iteration of the `extract_receipts` line loop. -/
def rcptStep (page_index : Nat) (target_year : String) (prev : Option String)
    (line : String) (ahead : List String) (st : RcptState) : RcptState :=
  if containsCI line "receipt description" then
    let header_lines :=
      (match prev with
       | some p => [p]
       | none => []) ++ [line] ++ ahead.take 2
    let header_text := String.intercalate " " header_lines
    let labels := infer_receipt_labels header_text
    { st with labels := labels,
              target_index := select_label_index labels target_year,
              in_receipt_table := true }
  else if !st.in_receipt_table then st
  else if stripC line.data = [] then st
  else if isPrefixC "total".data (lowerC (stripC line.data)) then st
  else
    match st.target_index with
    | none => st
    | some target_index =>
      if st.labels = [] then st
      else
        match rcptMkRow page_index line
            (String.intercalate " " ([line] ++ ahead.take 2))
            st.labels target_index with
        | none => st
        | some row => { st with rows := st.rows ++ [row] }

def rcptLines (page_index : Nat) (target_year : String) :
    Option String → List String → RcptState → RcptState
  | _, [], st => st
  | prev, line :: rest, st =>
    rcptLines page_index target_year (some line) rest
      (rcptStep page_index target_year prev line rest st)

def rcptPages (target_year : String) : Nat → List String → RcptState → RcptState
  | _, [], st => st
  | idx, pg :: rest, st =>
    rcptPages target_year (idx + 1) rest
      (rcptLines idx target_year none (pySplitlines pg)
        { st with in_receipt_table := false })

/-- `receipts.extract_receipts`. -/
def extract_receipts (pages : List String) (target_year : String) :
    List RevenueRow :=
  (rcptPages target_year 1 pages ⟨[], [], none, false⟩).rows

end Rcpt

/-! ### `summary.py` -/

namespace Summ

/-- Generic search for a hand-compiled matcher (`re.search` as boolean). -/
def searchSome {α : Type} (m : List Char → Option α) : List Char → Bool
  | [] => (m []).isSome
  | l@(_ :: t) => (m l).isSome || searchSome m t

/-- `\d{4}` (exactly four digits consumed). -/
def eatDigitsExact (n : Nat) (l : List Char) : Option (List Char) :=
  if (l.take n).length = n && (l.take n).all isDig then some (l.drop n)
  else none

def proposedSummaryM (l : List Char) : Option (List Char) :=
  (eatLit "proposed".data l).bind fun l1 =>
  (eatWS1 l1).bind fun l2 =>
  (eatDigitsExact 4 l2).bind fun l3 =>
  (eatWS1 l3).bind fun l4 =>
  (eatLit "budget".data l4).bind fun l5 =>
  (eatWS1 l5).bind fun l6 =>
  eatLit "summary".data l6

/-- `SUMMARY_HEADING_RE =
Approved Budget Summary|Budget Summary|Proposed\s+\d{4}\s+Budget\s+Summary`. -/
def summaryHeadingSearch (line : String) : Bool :=
  containsCI line "approved budget summary" || containsCI line "budget summary" ||
  searchSome proposedSummaryM (lowerC line.data)

/-- `\bWord1\s+Word2\b` search (ci); the words are alphabetic, so the
boundaries reduce to non-word neighbours. -/
def searchWordsBGo (words : List String) : Option Char → List Char → Bool
  | _, [] => false
  | prev, c :: t =>
    ((match Admin.wordsM words (c :: t) with
      | some rest =>
        (match prev with
         | some pc => !(isWordChar pc)
         | none => true) &&
        (match rest with
         | [] => true
         | nc :: _ => !(isWordChar nc))
      | none => false) : Bool) ||
    searchWordsBGo words (some c) t

def searchWordsB (s : String) (words : List String) : Bool :=
  searchWordsBGo words none (lowerC s.data)

/-- The ordered `SUMMARY_ITEMS` mapping (Python dicts iterate in insertion
order): key, boundary-delimited word pair, and the totals field it feeds. -/
def SUMMARY_ITEMS : List (String × List String) :=
  [("total_revenue", ["total", "revenue"]),
   ("total_expenditure", ["total", "expenditure"]),
   ("recurrent_expenditure", ["recurrent", "expenditure"]),
   ("capital_expenditure", ["capital", "expenditure"]),
   ("recurrent_revenue", ["recurrent", "revenue"])]

def summ_patterns : List (String × List String) :=
  [("original_budget", ["original", "budget"]),
   ("revised_budget", ["revised", "budget"]),
   ("performance", ["performance"]),
   ("approved_budget", ["approved"])]

/-- One `_infer_summary_labels` pattern: `(20\d{2})\s+word…` with, for
`approved`, a trailing `\b`. -/
def summPatM (label : String) (words : List String) (l : List Char) :
    Option (String × List Char) :=
  (eatYear l).bind fun p1 =>
  (eatWS1 p1.2).bind fun l2 =>
  (Admin.wordsM words l2).bind fun rest =>
  if label = "approved_budget" then
    match rest with
    | [] => some (p1.1 ++ "_" ++ label, rest)
    | nc :: _ =>
      if isWordChar nc then none else some (p1.1 ++ "_" ++ label, rest)
  else some (p1.1 ++ "_" ++ label, rest)

/-- `_infer_summary_labels`. -/
def infer_summary_labels (header_lines : List String) : List String :=
  let lower := lowerC (String.intercalate " " (header_lines.map pyStrip)).data
  let ms := summ_patterns.foldl
    (fun acc pr => acc ++ startsOnly (finditer (summPatM pr.1 pr.2) lower)) []
  dedupFirst ((stableSortByStart ms).map (fun p => p.2))

structure SummaryScan where
  header_labels : List String
  summary_heading : Option String
  summary_heading_page : Option Nat
  summary_page_lines : List String
  kebbi_style : Bool
deriving Repr, DecidableEq

/-- First scan: every `SUMMARY_HEADING_RE` hit on the first 50 pages offers
the labels of its four following lines; the largest label set wins. -/
def scan1Go (page_idx : Nat) (pageLines : List String) :
    List String → SummaryScan → SummaryScan
  | [], s => s
  | line :: rest, s =>
    let s' :=
      if summaryHeadingSearch line then
        let header_lines := rest.take 4
        let labels0 := Econ.infer_labels header_lines
        let labels :=
          if labels0 = [] then infer_summary_labels header_lines else labels0
        if s.header_labels.length < labels.length then
          { header_labels := labels
            summary_heading := some (pyStrip line)
            summary_heading_page := some page_idx
            summary_page_lines := pageLines
            kebbi_style := containsStr (String.intercalate " " header_lines) "Budget" }
        else s
      else s
    scan1Go page_idx pageLines rest s'

def scan1Pages : Nat → List String → SummaryScan → SummaryScan
  | _, [], s => s
  | idx, pg :: rest, s =>
    scan1Pages (idx + 1) rest (scan1Go idx (pySplitlines pg) (pySplitlines pg) s)

/-- Second scan (only when the first found nothing): first literal
`"Approved Budget Summary"`/`"Budget Summary"` hit per page; later pages
overwrite earlier ones. -/
def scan2Line (page_idx : Nat) (pageLines : List String) :
    List String → SummaryScan → SummaryScan
  | [], s => s
  | line :: rest, s =>
    if containsStr line "Approved Budget Summary" ||
        containsStr line "Budget Summary" then
      { header_labels := infer_summary_labels (rest.take 5)
        summary_heading := some (pyStrip line)
        summary_heading_page := some page_idx
        summary_page_lines := pageLines
        kebbi_style := containsStr (String.intercalate " " (rest.take 5)) "Budget" }
    else scan2Line page_idx pageLines rest s

def scan2Pages : Nat → List String → SummaryScan → SummaryScan
  | _, [], s => s
  | idx, pg :: rest, s =>
    scan2Pages (idx + 1) rest (scan2Line idx (pySplitlines pg) (pySplitlines pg) s)

/-- Third scan (first five pages): like the second, but it only extends the
accumulated label list with per-line summary labels and stops at the first
hit of each page. -/
def scan3Line (page_idx : Nat) (pageLines : List String) :
    List String → SummaryScan → SummaryScan
  | [], s => s
  | line :: rest, s =>
    if containsStr line "Approved Budget Summary" ||
        containsStr line "Budget Summary" then
      { s with
          header_labels := s.header_labels ++
            ((rest.take 5).foldl
              (fun acc ln => acc ++ infer_summary_labels [ln]) [])
          summary_heading := some (pyStrip line)
          summary_heading_page := some page_idx
          summary_page_lines := pageLines }
    else scan3Line page_idx pageLines rest s

def scan3Pages : Nat → List String → SummaryScan → SummaryScan
  | _, [], s => s
  | idx, pg :: rest, s =>
    scan3Pages (idx + 1) rest (scan3Line idx (pySplitlines pg) (pySplitlines pg) s)

structure SummaryContext where
  recurrent_revenue : Option (ExtractedField ℚ)
deriving Repr, DecidableEq

structure SummTotals where
  total_budget : ExtractedField ℚ
  capital_expenditure_total : ExtractedField ℚ
  recurrent_expenditure_total : ExtractedField ℚ
  revenue_total : ExtractedField ℚ
  financing_total : ExtractedField ℚ
  budget_summary_text : ExtractedField String
  recurrent_revenue_value : Option (ExtractedField ℚ)
deriving Repr, DecidableEq

def emptyTotals : SummTotals :=
  { total_budget := ExtractedField.null "not_extracted"
    capital_expenditure_total := ExtractedField.null "not_extracted"
    recurrent_expenditure_total := ExtractedField.null "not_extracted"
    revenue_total := ExtractedField.null "not_extracted"
    financing_total := ExtractedField.null "not_extracted"
    budget_summary_text := ExtractedField.null "not_extracted"
    recurrent_revenue_value := none }

def totalsToBudget (t : SummTotals) : BudgetTotals :=
  { total_budget := t.total_budget
    capital_expenditure_total := t.capital_expenditure_total
    recurrent_expenditure_total := t.recurrent_expenditure_total
    revenue_total := t.revenue_total
    financing_total := t.financing_total
    budget_summary_text := t.budget_summary_text }

/-- `^\s*\d+\s*-` as a boolean (`re.match`). -/
def lineStartsCodeDash (line : String) : Bool :=
  let l1 := line.data.dropWhile isPySpace
  let ds := l1.takeWhile isDig
  decide (ds ≠ []) &&
    (match (l1.dropWhile isDig).dropWhile isPySpace with
     | '-' :: _ => true
     | _ => false)

def pyIsdigit (s : String) : Bool := s.data ≠ [] && s.data.all isDig

/-- The four-column/else target-index choice of the summary line loop
(`if len(amount_columns) == 4: …`). -/
def summary_pick_idx (target_year : String) (target_index : Nat)
    (ncols : Nat) : Nat :=
  if ncols = 4 then (if target_year = "2025" then 3 else 1)
  else target_index

/-- Processing of one `SUMMARY_ITEMS` key on one line of the summary page. -/
def summaryItemStep (target_year : String) (target_index : Nat)
    (page_index : Nat) (summary_heading : Option String)
    (summary_heading_page : Option Nat) (line : String) (key : String)
    (words : List String) (t : SummTotals) : SummTotals :=
  if !(searchWordsB line words) then t
  else
    match numSearchSplit line.data with
    | none => t
    | some q =>
      let label_text := pyStrip (String.mk q.1)
      let cols0 := (numFindall q.2).map String.mk
      let cols1 :=
        if isPrefixC "23 -".data label_text.data ||
            isPrefixC "11 -".data label_text.data then
          match cols0 with
          | c0 :: c1 :: cRest =>
            if pyIsdigit c0 then c1 :: cRest else cols0
          | _ => cols0
        else cols0
      let target_idx := summary_pick_idx target_year target_index cols1.length
      let cols := if lineStartsCodeDash line then cols1.drop 1 else cols1
      if cols.length ≤ target_idx then t
      else
        match parse_amount_econ (cols.getD target_idx "") with
        | none => t
        | some amount_value =>
          let fv := ExtractedField.with_value_prov amount_value
            [⟨page_index, pyStrip line⟩]
          let t1 :=
            if key = "total_revenue" then { t with revenue_total := fv }
            else if key = "total_expenditure" then { t with total_budget := fv }
            else if key = "recurrent_expenditure" then
              { t with recurrent_expenditure_total := fv }
            else if key = "capital_expenditure" then
              { t with capital_expenditure_total := fv }
            else { t with recurrent_revenue_value := some fv }
          let t2 :=
            if key = "capital_expenditure" && cols.length = 4 &&
                target_year = "2025" then
              -- `parse_amount(cols[3]) or amount_value`: Python `or` also
              -- rejects an explicit 0.0
              let v :=
                match parse_amount_econ (cols.getD 3 "") with
                | some w => if w = 0 then amount_value else w
                | none => amount_value
              let fv' := ExtractedField.with_value_prov v [⟨page_index, pyStrip line⟩]
              { t1 with capital_expenditure_total := fv' }
            else t1
          if t2.budget_summary_text.value.isNone then
            match summary_heading with
            | some heading =>
              let hv := ExtractedField.with_value_prov heading
                [⟨summary_heading_page.getD 1, heading⟩]
              { t2 with budget_summary_text := hv }
            | none => t2
          else t2

def summaryLineStep (target_year : String) (target_index : Nat)
    (page_index : Nat) (summary_heading : Option String)
    (summary_heading_page : Option Nat) (line : String)
    (t : SummTotals) : SummTotals :=
  SUMMARY_ITEMS.foldl
    (fun acc kv =>
      summaryItemStep target_year target_index page_index summary_heading
        summary_heading_page line kv.1 kv.2 acc) t

/-- `summary.extract_budget_summary`. -/
def extract_budget_summary (pages : List String) (target_year : String) :
    BudgetTotals × SummaryContext :=
  let scan0 : SummaryScan := ⟨[], none, none, [], false⟩
  let s1 := scan1Pages 1 (pages.take 50) scan0
  let s2 := if s1.summary_page_lines = [] then scan2Pages 1 (pages.take 50) s1 else s1
  let s3 := if s2.summary_page_lines = [] then scan3Pages 1 (pages.take 5) s2 else s2
  if s3.header_labels = [] then (totalsToBudget emptyTotals, ⟨none⟩)
  else
    let target_index0 := Econ.select_target_label s3.header_labels target_year
    let target_index :=
      match target_index0 with
      | some i => some i
      | none =>
        if s3.kebbi_style && 4 ≤ s3.header_labels.length then some 3 else none
    match target_index with
    | none => (totalsToBudget emptyTotals, ⟨none⟩)
    | some ti =>
      if s3.summary_page_lines = [] then (totalsToBudget emptyTotals, ⟨none⟩)
      else
        let page_index := s3.summary_heading_page.getD 1
        let t := s3.summary_page_lines.foldl
          (fun acc line =>
            summaryLineStep target_year ti page_index s3.summary_heading
              s3.summary_heading_page line acc) emptyTotals
        let t' :=
          if t.revenue_total.value.isNone && t.recurrent_revenue_value.isSome then
            let rv := t.recurrent_revenue_value.getD (ExtractedField.null "not_extracted")
            { t with revenue_total := rv }
          else t
        (totalsToBudget t', ⟨t.recurrent_revenue_value⟩)

end Summ

/-! ### `metadata.py` -/

namespace Meta

def eatLitCI (pat : String) (l : List Char) : Option (List Char) :=
  if isPrefixC pat.data (lowerC l) then some (l.drop pat.length) else none

/-- Leftmost payload-returning search. -/
def findSomeSuffix {α : Type} (m : List Char → Option α) : List Char → Option α
  | [] => m []
  | l@(_ :: t) =>
    match m l with
    | some a => some a
    | none => findSomeSuffix m t

def searchWordsWS (s : String) (words : List String) : Bool :=
  Summ.searchSome (fun l => Admin.wordsM words l) (lowerC s.data)

def TITLE_EXCLUDE : List String :=
  ["revenue by", "expenditure by", "economic classification", "programme",
   "programmes", "projects", "administrative", "full year actuals"]

def title_pattern_hit (line : String) : Bool :=
  searchWordsWS line ["approved", "budget"] ||
  searchWordsWS line ["budget", "document"] ||
  containsCI line "appropriation"

def stateClassChar (c : Char) : Bool :=
  ('A' ≤ c && c ≤ 'Z') || c = ' ' || c = '&' || c = '.' || c = '-'

/-- `STATE_RE = ([A-Z][A-Z &.\-]+)\s+STATE` attempted at one position of the
(already upper-cased) title: greedy group, backtracking until `\s+STATE`
follows. -/
def stateTryAt (l : List Char) : Option (List Char) :=
  match l with
  | c :: rest =>
    if 'A' ≤ c && c ≤ 'Z' then
      let ext := rest.takeWhile stateClassChar
      ((List.range ext.length).map (fun j => ext.length - j)).findSome?
        (fun k =>
          ((eatWS1 (rest.drop k)).bind (fun a2 =>
            if isPrefixC "state".data (lowerC a2) then
              some (c :: ext.take k)
            else none)))
    else none
  | [] => none

def stateSearchGroup (l : List Char) : Option (List Char) :=
  findSomeSuffix stateTryAt l

/-- `YEAR_RE = (20\d{2})` leftmost search. -/
def yearSearch (s : String) : Option String :=
  findSomeSuffix (fun l => (eatYear l).map (fun p => p.1)) s.data

/-- `str.title()` (ASCII). -/
def pyTitleGo : Bool → List Char → List Char
  | _, [] => []
  | prevAlpha, c :: t =>
    let c' :=
      if isAsciiAlpha c then (if prevAlpha then lowerChar c else upperChar c)
      else c
    c' :: pyTitleGo (isAsciiAlpha c) t

def pyTitle (s : String) : String := String.mk (pyTitleGo false s.data)

/-- `STATE_CODE_RE = State\s+Code\s*[:\-]\s*([A-Z]{2,4})` (ci). -/
def stateCodeM (l : List Char) : Option String :=
  (eatLitCI "state" l).bind fun l1 =>
  (eatWS1 l1).bind fun l2 =>
  (eatLitCI "code" l2).bind fun l3 =>
  match l3.dropWhile isPySpace with
  | c :: l5 =>
    if c = ':' || c = '-' then
      let letters := (l5.dropWhile isPySpace).takeWhile isAsciiAlpha
      if 2 ≤ letters.length then some (String.mk (letters.take 4)) else none
    else none
  | [] => none

structure MetadataFields where
  state_name : ExtractedField String
  state_code : ExtractedField String
  budget_year : ExtractedField String
  document_title : ExtractedField String
  currency : ExtractedField String
deriving Repr, DecidableEq

/-- First qualifying title line over the first two pages. -/
def findTitle (pages : List String) : Option (Nat × String) :=
  let rec goPage (idx : Nat) : List String → Option (Nat × String)
    | [] => none
    | pg :: rest =>
      let hit := (pySplitlines pg).findSome? (fun line =>
        let stripped := pyStrip line
        if stripped = "" then none
        else if TITLE_EXCLUDE.any (fun k => containsCI stripped k) then none
        else if title_pattern_hit stripped then some stripped
        else none)
      match hit with
      | some t => some (idx, t)
      | none => goPage (idx + 1) rest
  goPage 1 (pages.take 2)

def findCurrencyLine (pages : List String) : Option (Nat × String) :=
  let rec goPage (idx : Nat) : List String → Option (Nat × String)
    | [] => none
    | pg :: rest =>
      let hit := (pySplitlines pg).findSome? (fun line =>
        let stripped := pyStrip line
        if stripped = "" then none
        else if containsStr stripped "NGN" ||
            containsSub (upperC stripped.data) "NAIRA".data ||
            stripped.data.contains (Char.ofNat 0x20A6) then
          some stripped
        else none)
      match hit with
      | some t => some (idx, t)
      | none => goPage (idx + 1) rest
  goPage 1 (pages.take 3)

def findStateCode (pages : List String) : Option (Nat × String × String) :=
  let rec goPage (idx : Nat) : List String → Option (Nat × String × String)
    | [] => none
    | pg :: rest =>
      let hit := (pySplitlines pg).findSome? (fun line =>
        (findSomeSuffix stateCodeM line.data).map (fun code => (code, line)))
      match hit with
      | some (code, line) => some (idx, code, line)
      | none => goPage (idx + 1) rest
  goPage 1 (pages.take 2)

/-- `metadata.extract_metadata`. -/
def extract_metadata (pdf_name : String) (pages : List String) :
    MetadataFields :=
  let title := findTitle pages
  let document_title : ExtractedField String :=
    match title with
    | some (pg, t) => ExtractedField.with_value_prov t [⟨pg, t⟩]
    | none => ExtractedField.null "not_extracted"
  let state_name0 : ExtractedField String :=
    match title with
    | some (pg, t) =>
      match stateSearchGroup (upperC t.data) with
      | some grp =>
        ExtractedField.with_value_prov (pyTitle (String.mk grp)) [⟨pg, t⟩]
      | none => ExtractedField.null "not_extracted"
    | none => ExtractedField.null "not_extracted"
  let budget_year0 : ExtractedField String :=
    match title with
    | some (pg, t) =>
      match yearSearch t with
      | some y => ExtractedField.with_value_prov y [⟨pg, t⟩]
      | none => ExtractedField.null "not_extracted"
    | none => ExtractedField.null "not_extracted"
  let currency : ExtractedField String :=
    match findCurrencyLine pages with
    | some (pg, line) => ExtractedField.with_value_prov "NGN" [⟨pg, line⟩]
    | none => ExtractedField.null "not_extracted"
  let state_code : ExtractedField String :=
    match findStateCode pages with
    | some (pg, code, line) =>
      ExtractedField.with_value_prov code [⟨pg, pyStrip line⟩]
    | none => ExtractedField.null "not_extracted"
  let budget_year :=
    if budget_year0.value.isNone then
      match yearSearch pdf_name with
      | some y => (⟨some y, some "from_filename", []⟩ : ExtractedField String)
      | none => budget_year0
    else budget_year0
  let state_name :=
    if state_name0.value.isNone then
      if (pyStem pdf_name).data.contains '_' then
        let state_pre := pyStrip
          (String.mk (beforeFirst (pyStem pdf_name).data '_'))
        if state_pre ≠ "" then
          (⟨some state_pre, some "from_filename", []⟩ : ExtractedField String)
        else state_name0
      else state_name0
    else state_name0
  { state_name := state_name, state_code := state_code,
    budget_year := budget_year, document_title := document_title,
    currency := currency }

end Meta

/-- Modelled from the spec: `validation.py` imports `EconomicConflict` from
`engine.economic`, which does not define it.  Spec §4.4: a conflict carries
the section, the shared code and both amounts. -/
structure EconomicConflict where
  table_type : String
  code : String
  first_amount : ℚ
  second_amount : ℚ
deriving Repr, DecidableEq

/-! ### `validation.py` -/

namespace Valid

/-- Decimal rendering of a model amount for error messages.  (Python
interpolates floats; no claim depends on the exact message text.) -/
def qStr (q : ℚ) : String := toString q

structure ValidationError where
  code : String
  message : String
deriving Repr, DecidableEq

def validate_page_count (expected extracted : Int) : List ValidationError :=
  if expected ≤ 0 then
    [⟨"pdfinfo_failed", "page count unavailable"⟩]
  else if extracted ≤ 0 then
    [⟨"text_extraction_failed", "no pages extracted"⟩]
  else if 2 < |expected - extracted| then
    [⟨"page_count_mismatch",
      "expected " ++ toString expected ++ ", extracted " ++ toString extracted⟩]
  else []

/-- Ascending lexicographic insertion sort (Python `sorted` on strings). -/
def insStr (x : String) : List String → List String
  | [] => [x]
  | y :: ys => if y < x then y :: insStr x ys else x :: y :: ys

def sortStrings (l : List String) : List String :=
  l.foldl (fun acc x => insStr x acc) []

def joinCommas (l : List String) : String :=
  String.intercalate ", " l

def seenFoldStep (acc : List (String × String) × List String)
    (unit : AdministrativeUnit) : List (String × String) × List String :=
  match unit.unit_code.value with
  | none => acc
  | some code =>
    if code = "" then acc
    else
      let key := (unit.table_type, code)
      if acc.1.contains key then (acc.1, acc.2 ++ [code])
      else (acc.1 ++ [key], acc.2)

def validate_admin_unit_codes (units : List AdministrativeUnit) :
    List ValidationError :=
  let dups := (units.foldl seenFoldStep ([], [])).2
  if dups ≠ [] then
    [⟨"duplicate_admin_unit",
      "duplicate admin unit codes: [" ++
        joinCommas (sortStrings (dedupFirst dups)) ++ "]"⟩]
  else []

/-- Per-label sums of unit amounts grouped by `(table_type, parent_code)`. -/
def unitSums (units : List AdministrativeUnit) :
    List ((String × String) × List (String × ℚ)) :=
  units.foldl
    (fun acc unit =>
      if unit.table_type ≠ "expenditure_mda" then acc
      else
        match unit.parent_code.value with
        | none => acc
        | some parent_code =>
          if parent_code = "" then acc
          else
            let key := (unit.table_type, parent_code)
            let acc :=
              if acc.any (fun e => e.1 = key) then acc else acc ++ [(key, [])]
            acc.map (fun e =>
              if e.1 = key then
                (e.1, unit.amounts.foldl
                  (fun sums item =>
                    match item.amount.value with
                    | none => sums
                    | some v =>
                      match sums.find? (fun p => p.1 = item.label) with
                      | some p =>
                        sums.map (fun q =>
                          if q.1 = item.label then (q.1, p.2 + v) else q)
                      | none => sums ++ [(item.label, v)]) e.2)
              else e)) []

def validate_mda_reconciliation (parent_rows : List ParentRow)
    (units : List AdministrativeUnit) : List ValidationError :=
  let sums := unitSums units
  parent_rows.foldl
    (fun errs parent =>
      if parent.table_type ≠ "expenditure_mda" then errs
      else
        match sums.find? (fun e => e.1 = (parent.table_type, parent.code)) with
        | none => errs
        | some entry =>
          errs ++ parent.amounts.foldl
            (fun acc item =>
              match item.amount.value with
              | none => acc
              | some expected =>
                match entry.2.find? (fun p => p.1 = item.label) with
                | none => acc
                | some actual =>
                  if 1 < |expected - actual.2| then
                    acc ++ [⟨"mda_reconciliation_failed",
                      "parent " ++ parent.code ++ " " ++ item.label ++
                        " expected " ++ qStr expected ++ " got " ++
                        qStr actual.2⟩]
                  else acc) []) []

def validate_economic_rows (revenue_rows : List RevenueRow)
    (expenditure_rows : List EconomicExpenditureRow) : List ValidationError :=
  (revenue_rows.filterMap (fun row =>
    if row.amount.value.isNone then
      some ⟨"economic_amount_missing",
        "revenue row missing amount: " ++ (row.line_text.getD "")⟩
    else none)) ++
  (expenditure_rows.filterMap (fun row =>
    if row.amount.value.isNone then
      some ⟨"economic_amount_missing",
        "expenditure row missing amount: " ++ (row.line_text.getD "")⟩
    else none))

def validate_programme_rows (rows : List ProgrammeRow) : List ValidationError :=
  rows.filterMap (fun row =>
    if row.amounts.any (fun item => item.amount.value.isNone) then
      some ⟨"programme_amount_missing",
        "programme row missing amount: " ++ (row.line_text.getD "")⟩
    else none)

def validate_budget_components (budget_totals : BudgetTotals) :
    List ValidationError :=
  match budget_totals.total_budget.value,
      budget_totals.capital_expenditure_total.value,
      budget_totals.recurrent_expenditure_total.value with
  | some total, some capital, some recurrent =>
    if 1 < |total - (capital + recurrent)| then
      [⟨"budget_totals_mismatch",
        "total budget " ++ qStr total ++ " != capital " ++ qStr capital ++
          " + recurrent " ++ qStr recurrent⟩]
    else []
  | _, _, _ => []

/-- The first-amount-per-code mapping used by `leaf_sum` (and, identically,
by `validate_economic_hierarchy`'s `build_map`). -/
def leafMapping (rows : List (Option String × Option ℚ)) :
    List (String × ℚ) :=
  rows.foldl
    (fun acc r =>
      match r with
      | (some code, some amt) =>
        if code = "" then acc
        else if acc.any (fun p => p.1 = code) then acc
        else acc ++ [(code, amt)]
      | _ => acc) []

/-- `validate_global_reconciliation.leaf_sum`: sum of the first-recorded
amounts of the codes no other recorded code strictly extends. -/
def leaf_sum (rows : List (Option String × Option ℚ)) : Option ℚ :=
  let mapping := leafMapping rows
  if mapping = [] then none
  else
    let codes := mapping.map Prod.fst
    let leaf_codes := codes.filter (fun code =>
      !(codes.any (fun other =>
        isPrefixC code.data other.data && code.length < other.length)))
    if leaf_codes = [] then none
    else
      some ((leaf_codes.map (fun c =>
        ((mapping.find? (fun p => p.1 = c)).map Prod.snd).getD 0)).sum)

def revenueKeyAmt (r : RevenueRow) : Option String × Option ℚ :=
  (r.code.value, r.amount.value)

def econKeyAmt (r : EconomicExpenditureRow) : Option String × Option ℚ :=
  (r.code.value, r.amount.value)

def validate_global_reconciliation (budget_totals : BudgetTotals)
    (revenue_rows : List RevenueRow)
    (expenditure_rows : List EconomicExpenditureRow)
    (mda_rows : List MdaExpenditureRow) (programme_rows : List ProgrammeRow)
    (revenue_reference : Option String) : List ValidationError :=
  let expErrs :=
    match budget_totals.total_budget.value with
    | none => []
    | some total_budget =>
      (match leaf_sum (expenditure_rows.map econKeyAmt) with
       | some exp_sum =>
         if 1 < |total_budget - exp_sum| then
           [⟨"global_expenditure_mismatch",
             "total budget " ++ qStr total_budget ++
               " != economic expenditure " ++ qStr exp_sum⟩]
         else []
       | none => []) ++
      (let mda_totals := mda_rows.filterMap (fun row => row.total_amount.value)
       if mda_totals ≠ [] && mda_totals.length = mda_rows.length then
         let mda_sum := mda_totals.sum
         if 1 < |total_budget - mda_sum| then
           [⟨"global_mda_mismatch",
             "total budget " ++ qStr total_budget ++ " != mda total " ++
               qStr mda_sum⟩]
         else []
       else []) ++
      (let programme_values :=
         programme_rows.filterMap (fun row => row.amount.value)
       if programme_values ≠ [] &&
           programme_values.length = programme_rows.length then
         let programme_sum := programme_values.sum
         if 1 < |total_budget - programme_sum| then
           [⟨"global_programme_mismatch",
             "total budget " ++ qStr total_budget ++ " != programme total " ++
               qStr programme_sum⟩]
         else []
       else []) 
  let revErrs :=
    -- the `revenue_reference` re-assignment in the source is a no-op
    match budget_totals.revenue_total.value with
    | none => []
    | some revenue_total =>
      match leaf_sum (revenue_rows.map revenueKeyAmt) with
      | some rev_sum =>
        if 1 < |revenue_total - rev_sum| then
          [⟨"global_revenue_mismatch",
            "total revenue " ++ qStr revenue_total ++
              " != economic revenue " ++ qStr rev_sum⟩]
        else []
      | none => []
  expErrs ++ revErrs

def validate_metadata_consistency (metadata : DocumentMetadata)
    (pdf_name : String) : List ValidationError :=
  let yearErrs :=
    match Meta.yearSearch pdf_name, metadata.budget_year.value with
    | some file_year, some extracted_year =>
      if extracted_year ≠ "" && file_year ≠ extracted_year then
        [⟨"metadata_year_mismatch",
          "filename year " ++ file_year ++ " != extracted year " ++
            extracted_year⟩]
      else []
    | _, _ => []
  let stateErrs :=
    if (pyStem pdf_name).data.contains '_' then
      let file_state := String.mk (lowerC
        (stripC (beforeFirst (pyStem pdf_name).data '_')))
      match metadata.state_name.value with
      | some sn =>
        if sn ≠ "" && file_state ≠ "" then
          let extracted_state := String.mk (lowerC sn.data)
          if !(containsStr extracted_state file_state) &&
              !(containsStr file_state extracted_state) then
            [⟨"metadata_state_mismatch",
              "filename state " ++ file_state ++ " != extracted state " ++
                extracted_state⟩]
          else []
        else []
      | none => []
    else []
  yearErrs ++ stateErrs

def dupCodesOf (codes : List String) : List String :=
  sortStrings (dedupFirst (codes.filter (fun c =>
    1 < (codes.filter (fun d => d = c)).length)))

def validate_economic_duplicates (revenue_rows : List RevenueRow)
    (expenditure_rows : List EconomicExpenditureRow) : List ValidationError :=
  let revCodes := revenue_rows.filterMap (fun r =>
    match r.code.value with
    | some c => if c = "" then none else some c
    | none => none)
  let expCodes := expenditure_rows.filterMap (fun r =>
    match r.code.value with
    | some c => if c = "" then none else some c
    | none => none)
  (match dupCodesOf revCodes with
   | [] => []
   | ds => [⟨"economic_duplicate_code",
       "revenue duplicate codes: [" ++ joinCommas ds ++ "]"⟩]) ++
  (match dupCodesOf expCodes with
   | [] => []
   | ds => [⟨"economic_duplicate_code",
       "expenditure duplicate codes: [" ++ joinCommas ds ++ "]"⟩])

def validate_economic_conflicts (conflicts : List EconomicConflict) :
    List ValidationError :=
  conflicts.map (fun conflict =>
    ⟨"economic_conflicting_code",
      conflict.table_type ++ " code " ++ conflict.code ++ " amounts " ++
        qStr conflict.first_amount ++ " vs " ++ qStr conflict.second_amount⟩)

/-- Stable ascending insertion by the `(len, code)` key used in
`validate_economic_hierarchy`. -/
def insLenStr (x : String) : List String → List String
  | [] => [x]
  | y :: ys =>
    if y.length < x.length || (y.length = x.length && (y < x || y = x)) then
      y :: insLenStr x ys
    else x :: y :: ys

def sortByLenStr (l : List String) : List String :=
  l.foldl (fun acc x => insLenStr x acc) []

def hierarchyReconcile (label : String) (mapping : List (String × ℚ)) :
    List ValidationError :=
  let codes := sortByLenStr (mapping.map Prod.fst)
  codes.foldl
    (fun errs code =>
      if 2 < code.length then errs
      else
        let children := (mapping.map Prod.fst).filter (fun child =>
          isPrefixC code.data child.data && code.length < child.length)
        match children with
        | [] => errs
        | c0 :: cRest =>
          let min_len := cRest.foldl (fun m c => min m c.length) c0.length
          let direct_children := children.filter (fun c => c.length = min_len)
          if direct_children.length < 2 then errs
          else
            let child_sum := (direct_children.map (fun c =>
              ((mapping.find? (fun p => p.1 = c)).map Prod.snd).getD 0)).sum
            let parent_amt :=
              ((mapping.find? (fun p => p.1 = code)).map Prod.snd).getD 0
            if 1 < |parent_amt - child_sum| then
              errs ++ [⟨"economic_reconciliation_failed",
                label ++ " code " ++ code ++ " expected " ++ qStr parent_amt ++
                  " got " ++ qStr child_sum⟩]
            else errs) []

def validate_economic_hierarchy (revenue_rows : List RevenueRow)
    (expenditure_rows : List EconomicExpenditureRow) : List ValidationError :=
  hierarchyReconcile "revenue" (leafMapping (revenue_rows.map revenueKeyAmt)) ++
  hierarchyReconcile "expenditure"
    (leafMapping (expenditure_rows.map econKeyAmt))

end Valid

/-! ### `normalization.py` -/

/-- `re.sub(r"\s*-\s*$", "", ·)`: drop one trailing dash and the whitespace
around it (no change when the string does not end in a dash). -/
def subTrailingDash (l : List Char) : List Char :=
  match l.reverse.dropWhile isPySpace with
  | '-' :: r2 => (r2.dropWhile isPySpace).reverse
  | _ => l

/-- `normalization.normalize_label`. -/
def normalize_label (value : String) : String :=
  let cleaned := collapseWS (stripC value.data)
  let cleaned := subTrailingDash cleaned
  String.mk (stripSet cleaned [' ', '.', ':'])

/-! ### `pipeline.py` -/

namespace Pipe

def ENGINE_VERSION : String := "0.1.0"

/-- `extract_text.split_pages`. -/
def split_pages (text : String) : List String :=
  let pages := (text.data.splitOn '\x0c').map String.mk
  match pages.getLast? with
  | some lastPg => if stripC lastPg.data = [] then pages.dropLast else pages
  | none => pages

/-- `pipeline.build_default_result`.  The extraction timestamp is an
out-of-scope wall-clock value; it is modelled as the empty string (no claim
observes it). -/
def build_default_result (pdf_name : String) (page_count : Int)
    (errors : List ExtractionError) : ExtractionResult :=
  let not_extracted := "not_extracted"
  { status := if errors ≠ [] then "failed" else "ok"
    errors := errors
    metadata :=
      { state_name := ExtractedField.null not_extracted
        state_code := ExtractedField.null not_extracted
        budget_year := ExtractedField.null not_extracted
        document_title := ExtractedField.null not_extracted
        source_file_name := pdf_name
        page_count := page_count
        currency := ExtractedField.null not_extracted
        extraction_timestamp := ""
        engine_version := ENGINE_VERSION }
    budget_totals :=
      { total_budget := ExtractedField.null not_extracted
        capital_expenditure_total := ExtractedField.null not_extracted
        recurrent_expenditure_total := ExtractedField.null not_extracted
        revenue_total := ExtractedField.null not_extracted
        financing_total := ExtractedField.null not_extracted
        budget_summary_text := ExtractedField.null not_extracted }
    revenue_breakdown := []
    expenditure_economic := []
    expenditure_mda := []
    administrative_units := []
    programme_projects := []
    appropriation_law :=
      { law_text := ExtractedField.null not_extracted
        page_range := ExtractedField.null not_extracted
        total_amount := ExtractedField.null not_extracted }
    assumptions := [] }

def mdaFindAmount (parent : ParentRow) (label : String) : ExtractedField ℚ :=
  match parent.amounts.find? (fun item => item.label = label) with
  | some item => item.amount
  | none => ExtractedField.null "not_extracted"

def mdaUpdate (d : List (String × MdaExpenditureRow)) (k : String)
    (row : MdaExpenditureRow) : List (String × MdaExpenditureRow) :=
  match d with
  | [] => [(k, row)]
  | (k', v') :: rest =>
    if k' = k then (k, row) :: rest else (k', v') :: mdaUpdate rest k row

def mdaAppendUnit (d : List (String × MdaExpenditureRow)) (k : String)
    (unit : AdministrativeUnit) : List (String × MdaExpenditureRow) :=
  d.map (fun e =>
    if e.1 = k then
      (e.1, { e.2 with administrative_units :=
        e.2.administrative_units ++ [unit] })
    else e)

/-- `pipeline.build_mda_groups`. -/
def build_mda_groups (admin_units : List AdministrativeUnit)
    (parent_rows : List ParentRow) : List MdaExpenditureRow :=
  let parents := parent_rows.foldl
    (fun acc parent =>
      if parent.table_type ≠ "expenditure_mda" then acc
      else
        mdaUpdate acc parent.code
          { mda_code := ExtractedField.with_value parent.code
            mda_name := ExtractedField.with_value parent.name
            recurrent_amount := mdaFindAmount parent "total_recurrent"
            capital_amount := mdaFindAmount parent "capital"
            total_amount := mdaFindAmount parent "total_expenditure"
            administrative_units := []
            page := some parent.page
            line_text := some parent.line_text }) []
  let parents := admin_units.foldl
    (fun acc unit =>
      match unit.parent_code.value, unit.parent_name.value with
      | some parent_code, some parent_name =>
        if parent_code = "" || parent_name = "" then acc
        else
          let acc :=
            if acc.any (fun e => e.1 = parent_code) then acc
            else acc ++ [(parent_code,
              { mda_code := ExtractedField.with_value parent_code
                mda_name := ExtractedField.with_value parent_name
                recurrent_amount := ExtractedField.null "not_extracted"
                capital_amount := ExtractedField.null "not_extracted"
                total_amount := ExtractedField.null "not_extracted"
                administrative_units := []
                page := none
                line_text := none })]
          mdaAppendUnit acc parent_code unit
      | _, _ => acc) parents
  (Valid.sortStrings (parents.map Prod.fst)).filterMap
    (fun k => (parents.find? (fun e => e.1 = k)).map Prod.snd)

/-- Modelled from the spec: the conflict-aware variant of
`extract_economic_rows` whose three-component result `pipeline.py` unpacks
(`src/economic.py` has no conflict logic).  Spec §4.4: when two accepted
rows of one section share a code and their amounts differ by more than 1.0,
the first row is retained and an `EconomicConflict` carrying both amounts is
emitted; an accepted duplicate within tolerance is kept as a row (the
duplicate-code validator reports it). -/
structure EconFullState where
  revenue_rows : List RevenueRow
  expenditure_rows : List EconomicExpenditureRow
  conflicts : List EconomicConflict
  current_section : Option String
  last_section : Option String
  context : Option Econ.EconomicContext
deriving Repr, DecidableEq

def econEmitFull (page_index : Nat) (line : String) (target_year : String)
    (ctx : Econ.EconomicContext) (st : EconFullState) : EconFullState :=
  match Econ.parse_row line with
  | none => st
  | some (code, desc, amount_columns) =>
    if desc = "" || !(has_alpha desc) then st
    else if ctx.labels = [] then st
    else
      match Econ.select_target_label ctx.labels target_year with
      | none => st
      | some target_index =>
        if target_index ≥ amount_columns.length then st
        else
          match parse_amount_econ (amount_columns.getD target_index "") with
          | none => st
          | some amount_value =>
            let existing : Option ℚ :=
              if ctx.table_type = "revenue" then
                ((st.revenue_rows.find? (fun r => r.code.value = some code)).bind
                  (fun r => r.amount.value))
              else
                ((st.expenditure_rows.find? (fun r => r.code.value = some code)).bind
                  (fun r => r.amount.value))
            match existing with
            | some first_amount =>
              if 1 < |first_amount - amount_value| then
                { st with conflicts := st.conflicts ++
                    [⟨ctx.table_type, code, first_amount, amount_value⟩] }
              else
                appendRow st
            | none => appendRow st
where
  appendRow (st : EconFullState) : EconFullState :=
    match Econ.parse_row line with
    | none => st
    | some (code, desc, amount_columns) =>
      match Econ.select_target_label ctx.labels target_year with
      | none => st
      | some target_index =>
        match parse_amount_econ (amount_columns.getD target_index "") with
        | none => st
        | some amount_value =>
          if ctx.table_type = "revenue" then
            { st with revenue_rows := st.revenue_rows ++
                [{ code := ExtractedField.with_value code
                   category := ExtractedField.with_value desc
                   subcategory := ExtractedField.null "not_extracted"
                   amount := ExtractedField.with_value_prov amount_value
                     [⟨page_index, pyStrip line⟩]
                   classification := ExtractedField.with_value "economic"
                   administrative_code := ExtractedField.null "not_extracted"
                   administrative_description := ExtractedField.null "not_extracted"
                   fund_code := ExtractedField.null "not_extracted"
                   fund_description := ExtractedField.null "not_extracted"
                   page := some page_index
                   line_text := some (pyStrip line) }] }
          else
            { st with expenditure_rows := st.expenditure_rows ++
                [{ code := ExtractedField.with_value code
                   category := ExtractedField.with_value desc
                   subcategory := ExtractedField.null "not_extracted"
                   amount := ExtractedField.with_value_prov amount_value
                     [⟨page_index, pyStrip line⟩]
                   page := some page_index
                   line_text := some (pyStrip line) }] }

def econStepFull (page_index : Nat) (target_year : String)
    (prev : Option String) (line : String) (ahead : List String)
    (st : EconFullState) : EconFullState :=
  if Econ.revenue_heading line then
    { st with current_section := some "revenue", last_section := some "revenue",
              context := none }
  else if Econ.expenditure_heading line then
    { st with current_section := some "expenditure",
              last_section := some "expenditure", context := none }
  else if containsStr line "Approved Budget -" && !(Econ.header_matches line) then
    { st with current_section := none, context := none }
  else if Econ.header_matches line then
    let sect :=
      match st.current_section with
      | none => st.last_section
      | some s => some s
    let header_lines :=
      (match prev with
       | some p => if Econ.is_header_context_line p then [p] else []
       | none => []) ++
      [line] ++ (ahead.take 2).filter Econ.is_header_context_line
    let labels := Econ.infer_labels header_lines
    match sect with
    | some s => { st with current_section := some s, context := some ⟨s, labels⟩ }
    | none => { st with current_section := none }
  else
    match st.current_section, st.context with
    | some _, some ctx =>
      if econ_code_matches line then econEmitFull page_index line target_year ctx st
      else st
    | _, _ => st

def econLinesFull (page_index : Nat) (target_year : String) :
    Option String → List String → EconFullState → EconFullState
  | _, [], st => st
  | prev, line :: rest, st =>
    econLinesFull page_index target_year (some line) rest
      (econStepFull page_index target_year prev line rest st)

def econPagesFull (target_year : String) :
    Nat → List String → EconFullState → EconFullState
  | _, [], st => st
  | idx, pg :: rest, st =>
    econPagesFull target_year (idx + 1) rest
      (econLinesFull idx target_year none (pySplitlines pg)
        { st with context := none })

def extract_economic_rows_full (pages : List String) (target_year : String) :
    List RevenueRow × List EconomicExpenditureRow × List EconomicConflict :=
  let final := econPagesFull target_year 1 pages ⟨[], [], [], none, none, none⟩
  (final.revenue_rows, final.expenditure_rows, final.conflicts)

def toExtractionError (e : Valid.ValidationError) : ExtractionError :=
  ⟨e.code, e.message⟩

def normalizeProgrammeRow (row : ProgrammeRow) : ProgrammeRow :=
  let row :=
    match row.sector.value with
    | some sv =>
      if sv ≠ "" then
        let sv' := ExtractedField.with_value_prov (normalize_label sv)
          row.sector.provenance
        { row with sector := sv' }
      else row
    | none => row
  match row.objective.value with
  | some ov =>
    if ov ≠ "" then
      let ov' := ExtractedField.with_value_prov (normalize_label ov)
        row.objective.provenance
      { row with objective := ov' }
    else row
  | none => row

/-- The pure tail of `pipeline.run_pipeline` for a run in which `pdfinfo`
reported `page_count` and `pdftotext` produced `text` (the filesystem,
logging, metrics and JSON serialization steps are out-of-scope I/O; the
functional-classification rows feed only `app_output.json`, never the
result, and are omitted).  The returned record reflects the source's
aliasing: `errors` is the same list object inside and outside the result, so
the metadata-consistency errors appended after `build_default_result` appear
in `result.errors` although `status` was computed before them. -/
def run_pipeline_core (pdf_name : String) (page_count : Int) (text : String) :
    ExtractionResult :=
  let target_year := (Meta.yearSearch pdf_name).getD ""
  let pages := split_pages text
  let errs1 := (Valid.validate_page_count page_count pages.length).map
    toExtractionError
  let metadata_fields := Meta.extract_metadata pdf_name pages
  let adminFull := Admin.extract_admin_units_full pages
  let admin_units := adminFull.1
  let parent_rows := adminFull.2.1
  let errs2 := errs1 ++
    (Valid.validate_admin_unit_codes admin_units).map toExtractionError ++
    (Valid.validate_mda_reconciliation parent_rows admin_units).map
      toExtractionError
  let mda_rows := build_mda_groups admin_units parent_rows
  let econPart :=
    if target_year ≠ "" then
      let econFull := extract_economic_rows_full pages target_year
      let revenue_rows := econFull.1
      let expenditure_rows := econFull.2.1
      let conflicts := econFull.2.2
      let summPart := Summ.extract_budget_summary pages target_year
      let programme_rows := Prog.extract_programme_projects pages target_year
      let receipt_rows := Rcpt.extract_receipts pages target_year
      let errsEcon :=
        (Valid.validate_economic_rows revenue_rows expenditure_rows).map
          toExtractionError ++
        (Valid.validate_economic_duplicates revenue_rows expenditure_rows).map
          toExtractionError ++
        (Valid.validate_economic_conflicts conflicts).map toExtractionError ++
        (Valid.validate_economic_hierarchy revenue_rows expenditure_rows).map
          toExtractionError ++
        (Valid.validate_programme_rows programme_rows).map toExtractionError
      let programme_rows := programme_rows.map normalizeProgrammeRow
      let errsTotals :=
        (Valid.validate_budget_components summPart.1).map toExtractionError ++
        (Valid.validate_global_reconciliation summPart.1 revenue_rows
          expenditure_rows mda_rows programme_rows
          (if summPart.2.recurrent_revenue.isSome then
            some "recurrent_revenue" else none)).map toExtractionError
      (revenue_rows, expenditure_rows, programme_rows, receipt_rows,
        some summPart.1, errsEcon ++ errsTotals)
    else ([], [], [], [], none, [])
  let errorsBeforeResult := errs2 ++ econPart.2.2.2.2.2
  let result := build_default_result pdf_name page_count errorsBeforeResult
  let result :=
    { result with metadata :=
        { result.metadata with
            state_name := metadata_fields.state_name
            state_code := metadata_fields.state_code
            budget_year := metadata_fields.budget_year
            document_title := metadata_fields.document_title
            currency := metadata_fields.currency } }
  let errorsFinal := errorsBeforeResult ++
    (Valid.validate_metadata_consistency result.metadata pdf_name).map
      toExtractionError
  { result with
      errors := errorsFinal
      budget_totals := (econPart.2.2.2.2.1).getD result.budget_totals
      administrative_units := admin_units
      expenditure_mda := mda_rows
      revenue_breakdown := econPart.1 ++ econPart.2.2.2.1
      expenditure_economic := econPart.2.1
      programme_projects := econPart.2.2.1 }

end Pipe

/-! ## Proof development -/

theorem string_mk_data (s : String) : String.mk s.data = s := rfl

theorem contains_iff_mem (l : List (String × String)) (k : String × String) :
    l.contains k = true ↔ k ∈ l := by
  simp [List.contains_eq_any_beq, List.any_eq_true, beq_iff_eq]

theorem admin_code_match_len (col code : String)
    (h : admin_code_match col = some code) : 6 ≤ code.length := by
  simp only [admin_code_match] at h
  split at h
  · rename_i hlen
    simp only [Option.some.injEq] at h
    subst h
    simpa using hlen
  · exact absurd h (by simp)

theorem parse_row_code_len (line code nm : String) (cols : List String)
    (h : Admin.parse_row line = some (code, nm, cols)) : 6 ≤ code.length := by
  simp only [Admin.parse_row] at h
  split at h
  · exact absurd h (by simp)
  · rename_i col0 restCols
    split at h
    · exact absurd h (by simp)
    · rename_i code' hmatch
      split at h
      · split at h
        · simp only [Option.some.injEq, Prod.mk.injEq] at h
          obtain ⟨hc, -, -⟩ := h
          subst hc
          exact admin_code_match_len _ _ hmatch
        · simp only [Option.some.injEq, Prod.mk.injEq] at h
          obtain ⟨hc, -, -⟩ := h
          subst hc
          exact admin_code_match_len _ _ hmatch
      · simp only [Option.some.injEq, Prod.mk.injEq] at h
        obtain ⟨hc, -, -⟩ := h
        subst hc
        exact admin_code_match_len _ _ hmatch

/-- Key of an accepted administrative unit, as used by the duplicate
tracking. -/
def ukey (u : AdministrativeUnit) : String × String :=
  (u.table_type, u.unit_code.value.getD "")

/-- Invariant of the `extract_admin_units` walk: every accepted unit has all
amounts populated, carries a non-parent non-empty code, and is registered in
`seen`; accepted units have pairwise distinct keys. -/
def AdminInv (st : Admin.AdminState) : Prop :=
  (∀ u ∈ st.units,
    (∀ item ∈ u.amounts, item.amount.value ≠ none) ∧
    (∃ c, u.unit_code.value = some c ∧ is_parent_code c = false ∧ c ≠ "") ∧
    ukey u ∈ st.seen) ∧
  List.Pairwise (fun u v => ukey u ≠ ukey v) st.units

theorem adminRowStep_inv (p : Nat) (line : String) (ctx : Admin.HeaderContext)
    (st : Admin.AdminState) (h : AdminInv st) :
    AdminInv (Admin.adminRowStep p line ctx st) := by
  simp only [Admin.adminRowStep]
  split
  · exact h
  · rename_i code nm cols hparse
    split
    · exact h
    · split
      · exact h
      · rename_i hname hparent
        split
        · exact h
        · split
          · exact h
          · rename_i hnotall hnone
            split
            · exact h
            · rename_i hseen
              have hkeynotin : (ctx.table_type, code) ∉ st.seen := by
                intro hmem
                exact hseen ((contains_iff_mem _ _).mpr hmem)
              constructor
              · intro u hu
                simp only [List.mem_append, List.mem_singleton] at hu
                rcases hu with hu | hu
                · obtain ⟨h1, h2, h3⟩ := h.1 u hu
                  exact ⟨h1, h2, List.mem_append_left _ h3⟩
                · subst hu
                  refine ⟨?_, ?_, ?_⟩
                  · intro item hitem
                    simp only [List.any_eq_true, not_exists, not_and] at hnone
                    have := hnone item hitem
                    simp only [Option.isNone_iff_eq_none] at this
                    simpa using this
                  · refine ⟨code, rfl, by simpa using hparent, ?_⟩
                    have := parse_row_code_len line code nm cols hparse
                    intro hc
                    subst hc
                    simp at this
                  · simp [ukey, ExtractedField.with_value]
              · rw [List.pairwise_append]
                refine ⟨h.2, List.pairwise_singleton _ _, ?_⟩
                intro a ha b hb
                simp only [List.mem_singleton] at hb
                subst hb
                have h3 := (h.1 a ha).2.2
                simp only [ukey, ExtractedField.with_value]
                intro hkey
                simp only [Option.getD_some] at hkey
                simp only [ukey] at h3
                rw [hkey] at h3
                exact hkeynotin h3

theorem adminStep_inv (p : Nat) (prev : Option String) (line : String)
    (ahead : List String) (st : Admin.AdminState) (h : AdminInv st) :
    AdminInv (Admin.adminStep p prev line ahead st) := by
  simp only [Admin.adminStep]
  split
  · exact h
  · split
    · exact h
    · split
      · exact h
      · split
        · exact h
        · split
          · exact adminRowStep_inv _ _ _ _ h
          · exact h

theorem adminLines_inv (p : Nat) (prev : Option String) (lines : List String)
    (st : Admin.AdminState) (h : AdminInv st) :
    AdminInv (Admin.adminLines p prev lines st) := by
  induction lines generalizing prev st with
  | nil => exact h
  | cons line rest ih =>
    exact ih (some line) _ (adminStep_inv p prev line rest st h)

theorem adminPages_inv (idx : Nat) (pages : List String)
    (st : Admin.AdminState) (h : AdminInv st) :
    AdminInv (Admin.adminPages idx pages st) := by
  induction pages generalizing idx st with
  | nil => exact h
  | cons pg rest ih =>
    exact ih (idx + 1) _ (adminLines_inv idx none (pySplitlines pg) _ h)

theorem extract_admin_units_inv (pages : List String) :
    AdminInv (Admin.adminPages 1 pages ⟨[], [], [], none, []⟩) :=
  adminPages_inv 1 pages _ ⟨by simp, List.Pairwise.nil⟩

theorem seenFold_snd (units : List AdministrativeUnit)
    (acc : List (String × String) × List String)
    (hcode : ∀ u ∈ units, ∃ c, u.unit_code.value = some c ∧ c ≠ "")
    (hpw : List.Pairwise (fun u v => ukey u ≠ ukey v) units)
    (hnot : ∀ u ∈ units, ukey u ∉ acc.1) :
    (units.foldl Valid.seenFoldStep acc).2 = acc.2 := by
  induction units generalizing acc with
  | nil => simp
  | cons u rest ih =>
    obtain ⟨c, hc, hcne⟩ := hcode u (by simp)
    have hukey : ukey u = (u.table_type, c) := by simp [ukey, hc]
    have hcont : acc.1.contains (u.table_type, c) = false := by
      have := hnot u (by simp)
      rw [hukey] at this
      rcases hb : acc.1.contains (u.table_type, c) with _ | _
      · rfl
      · exact absurd ((contains_iff_mem _ _).mp hb) this
    have hstep : Valid.seenFoldStep acc u = (acc.1 ++ [(u.table_type, c)], acc.2) := by
      simp only [Valid.seenFoldStep, hc]
      rw [if_neg hcne]
      simp only [hcont]
      simp
    rw [List.foldl_cons, hstep]
    refine ih _ (fun v hv => hcode v (by simp [hv])) hpw.of_cons ?_
    intro v hv
    simp only [List.mem_append, List.mem_singleton]
    push_neg
    refine ⟨hnot v (by simp [hv]), ?_⟩
    have hne := (List.pairwise_cons.mp hpw).1 v hv
    rw [hukey] at hne
    exact fun heq => hne heq.symm

theorem validate_admin_of_inv (units : List AdministrativeUnit)
    (hcode : ∀ u ∈ units, ∃ c, u.unit_code.value = some c ∧ c ≠ "")
    (hpw : List.Pairwise (fun u v => ukey u ≠ ukey v) units) :
    Valid.validate_admin_unit_codes units = [] := by
  have h := seenFold_snd units ([], []) hcode hpw (by simp)
  simp only [Valid.validate_admin_unit_codes, h]
  simp

theorem progAmountsGo_all_some (cols : List String) (ut : Bool)
    (ti : Option Nat) (p : Nat) (line : String) :
    ∀ (labels : List String) (idx : Nat) (acc : List AmountItem)
      (av : Option ℚ) (res : List AmountItem × Option ℚ),
      (∀ it ∈ acc, it.amount.value ≠ none) →
      Prog.progAmountsGo cols ut ti p line idx labels acc av = some res →
      ∀ it ∈ res.1, it.amount.value ≠ none := by
  intro labels
  induction labels with
  | nil =>
    intro idx acc av res hacc h
    simp only [Prog.progAmountsGo, Option.some.injEq] at h
    subst h
    exact hacc
  | cons label rest ih =>
    intro idx acc av res hacc h
    simp only [Prog.progAmountsGo] at h
    split at h
    · exact absurd h (by simp)
    · rename_i v hv
      refine ih (idx + 1) _ _ res ?_ h
      intro it hit
      simp only [List.mem_append, List.mem_singleton] at hit
      rcases hit with hit | hit
      · exact hacc it hit
      · subst hit
        simp [ExtractedField.with_value_prov]

def ProgInv (rows : List ProgrammeRow) : Prop :=
  ∀ r ∈ rows, ∀ it ∈ r.amounts, it.amount.value ≠ none

theorem progMkRow_amounts (p : Nat) (line : String) (columns : List String)
    (ei : Nat) (pc : String) (st : Prog.ProgState) (row : ProgrammeRow)
    (h : Prog.progMkRow p line columns ei pc st = some row) :
    ∀ it ∈ row.amounts, it.amount.value ≠ none := by
  simp only [Prog.progMkRow, Option.bind_eq_some] at h
  obtain ⟨econP, -, funcP, -, locP, -, u1, -, amountsAv, hAmt, u2, -, h⟩ := h
  simp only [Option.some.injEq] at h
  subst h
  intro it hit
  exact progAmountsGo_all_some _ _ _ _ _ _ 0 [] none _ (by simp)
    (by simpa [Prog.progAmounts] using hAmt) it hit

theorem progEmit_inv (p : Nat) (line : String) (columns : List String)
    (ei : Nat) (pc : String) (st : Prog.ProgState)
    (h : ProgInv st.rows) : ProgInv (Prog.progEmit p line columns ei pc st).rows := by
  simp only [Prog.progEmit]
  split
  · exact h
  · rename_i row hrow
    intro r hr
    simp only [List.mem_append, List.mem_singleton] at hr
    rcases hr with hr | hr
    · exact h r hr
    · subst hr
      exact progMkRow_amounts _ _ _ _ _ _ _ hrow

set_option maxHeartbeats 1000000 in
theorem progStep_inv (p : Nat) (ty : String) (prev : Option String)
    (line : String) (ahead : List String) (st : Prog.ProgState)
    (h : ProgInv st.rows) :
    ProgInv (Prog.progStep p ty prev line ahead st).rows := by
  unfold Prog.progStep
  repeat' first
    | exact h
    | exact progEmit_inv _ _ _ _ _ _ h
    | split
    | dsimp only

theorem progLines_inv (p : Nat) (ty : String) (prev : Option String)
    (lines : List String) (st : Prog.ProgState) (h : ProgInv st.rows) :
    ProgInv (Prog.progLines p ty prev lines st).rows := by
  induction lines generalizing prev st with
  | nil => exact h
  | cons line rest ih =>
    exact ih (some line) _ (progStep_inv p ty prev line rest st h)

theorem progPages_inv (ty : String) (idx : Nat) (pages : List String)
    (st : Prog.ProgState) (h : ProgInv st.rows) :
    ProgInv (Prog.progPages ty idx pages st).rows := by
  induction pages generalizing idx st with
  | nil => exact h
  | cons pg rest ih =>
    exact ih (idx + 1) _ (progLines_inv idx ty none (pySplitlines pg) st h)

/-- A successfully parsed receipt block has a description of length at least 6
containing no digit character: the source's guards on `receipt_desc`. -/
theorem parse_receipt_block_desc (text : String) (blk : Rcpt.ReceiptBlock)
    (h : Rcpt.parse_receipt_block text = some blk) :
    6 ≤ blk.receipt_desc.length ∧ Prog.containsDigit blk.receipt_desc = false := by
  simp only [Rcpt.parse_receipt_block] at h
  repeat' split at h
  all_goals
    first
    | exact Option.noConfusion h
    | (simp only [Option.some.injEq] at h
       subst h
       refine ⟨?_, ?_⟩
       · dsimp only
         omega
       · dsimp only
         rw [Bool.eq_false_iff]
         assumption)

/-- Invariant of the receipts walk: every accumulated row's category (the
receipt description) is present, at least 6 characters long and digit-free. -/
def RcptInv (rows : List RevenueRow) : Prop :=
  ∀ r ∈ rows, ∃ d, r.category.value = some d ∧
    6 ≤ d.length ∧ Prog.containsDigit d = false

theorem rcptMkRow_desc (p : Nat) (line combined : String)
    (labels : List String) (ti : Nat) (row : RevenueRow)
    (h : Rcpt.rcptMkRow p line combined labels ti = some row) :
    ∃ d, row.category.value = some d ∧
      6 ≤ d.length ∧ Prog.containsDigit d = false := by
  simp only [Rcpt.rcptMkRow, Option.bind_eq_some] at h
  obtain ⟨blk, hblk, u1, -, u2, -, av, -, h⟩ := h
  simp only [Option.some.injEq] at h
  subst h
  obtain ⟨hlen, hdig⟩ := parse_receipt_block_desc _ _ hblk
  exact ⟨blk.receipt_desc, rfl, hlen, hdig⟩

set_option maxHeartbeats 1000000 in
theorem rcptStep_inv (p : Nat) (ty : String) (prev : Option String)
    (line : String) (ahead : List String) (st : Rcpt.RcptState)
    (h : RcptInv st.rows) :
    RcptInv (Rcpt.rcptStep p ty prev line ahead st).rows := by
  unfold Rcpt.rcptStep
  repeat' first
    | exact h
    | split
    | dsimp only
  all_goals
    rename_i row hrow
    intro r hr
    rcases List.mem_append.mp hr with hm | hm
    · exact h r hm
    · rw [List.mem_singleton] at hm
      subst hm
      exact rcptMkRow_desc _ _ _ _ _ _ hrow

theorem rcptLines_inv (p : Nat) (ty : String) (prev : Option String)
    (lines : List String) (st : Rcpt.RcptState) (h : RcptInv st.rows) :
    RcptInv (Rcpt.rcptLines p ty prev lines st).rows := by
  induction lines generalizing prev st with
  | nil => exact h
  | cons line rest ih =>
    exact ih (some line) _ (rcptStep_inv p ty prev line rest st h)

theorem rcptPages_inv (ty : String) (idx : Nat) (pages : List String)
    (st : Rcpt.RcptState) (h : RcptInv st.rows) :
    RcptInv (Rcpt.rcptPages ty idx pages st).rows := by
  induction pages generalizing idx st with
  | nil => exact h
  | cons pg rest ih =>
    exact ih (idx + 1) _ (rcptLines_inv idx ty none (pySplitlines pg) _ h)

/-! ## Claim theorems -/

/-- Concrete page of the claim C1 example: two accepted expenditure rows with
code `22` at amounts 10,000,000 and 10,500,000. -/
def C1page : String :=
  "Expenditure by Economic Classification\nCode   Economic Description   2025 Approved Budget\n22  Personnel Cost  10,000,000\n22  Personnel Cost  10,500,000"

set_option maxRecDepth 400000 in
/-- C1: contrary to the claim, `extract_economic_rows` keeps BOTH accepted
rows of the same section with equal code `22` and amounts differing by more
than 1.0 — the second row is appended to the list like any other, and the
source produces no conflict record (it defines no `EconomicConflict`). -/
theorem C1_both_conflicting_rows_kept :
    ((Econ.extract_economic_rows [C1page] "2025").2.map
        (fun r => (r.code.value, r.amount.value))) =
      [(some "22", some 10000000), (some "22", some 10500000)] := by decide

set_option maxRecDepth 1000000 in
/-- C2: contrary to the claim, the pipeline can return a final result whose
status is "ok" while its errors list is non-empty: on a filename without a
year (`Abia_Budget.pdf`) and a page naming another state, the
metadata-consistency errors are appended to the aliased errors list after
`build_default_result` computed the status. -/
theorem C2_status_ok_with_errors :
    (Pipe.run_pipeline_core "Abia_Budget.pdf" 1
        "KANO STATE APPROVED BUDGET").status = "ok" ∧
    (Pipe.run_pipeline_core "Abia_Budget.pdf" 1
        "KANO STATE APPROVED BUDGET").errors.map (fun e => e.code) =
      ["metadata_state_mismatch"] := by decide

/-- C3: every administrative unit returned by `extract_admin_units` and every
programme row returned by `extract_programme_projects` has all of its
per-label amounts non-null. -/
theorem C3_extracted_amounts_non_null (pages : List String) (ty : String) :
    (∀ u ∈ (Admin.extract_admin_units pages).1,
      ∀ it ∈ u.amounts, it.amount.value ≠ none) ∧
    (∀ r ∈ Prog.extract_programme_projects pages ty,
      ∀ it ∈ r.amounts, it.amount.value ≠ none) := by
  constructor
  · intro u hu it hit
    exact ((extract_admin_units_inv pages).1 u hu).1 it hit
  · intro r hr it hit
    exact progPages_inv ty 1 pages _
      (fun r hr => absurd hr (List.not_mem_nil r)) r hr it hit

/-- C4: no two administrative units in `extract_admin_units`'s output share a
`(table_type, unit_code)` key, and `validate_admin_unit_codes` on that output
returns no error. -/
theorem C4_no_duplicate_admin_units (pages : List String) :
    List.Pairwise (fun u v => ukey u ≠ ukey v)
      (Admin.extract_admin_units pages).1 ∧
    Valid.validate_admin_unit_codes (Admin.extract_admin_units pages).1 = [] := by
  have h := extract_admin_units_inv pages
  refine ⟨h.2, validate_admin_of_inv _ ?_ h.2⟩
  intro u hu
  obtain ⟨c, hc, -, hne⟩ := (h.1 u hu).2.1
  exact ⟨c, hc, hne⟩

/-- The en-dash character, as a string. -/
def enDashStr : String := "–"

/-- C5: contrary to the claim, the two `parse_amount` copies disagree on the
en-dash: the admin-units copy returns 0 on it, but the economic copy's dash
set holds a mojibake sequence instead of the en-dash, so the economic copy
strips the character and returns null.  The other clauses of the claim hold:
"-" gives 0, the empty string gives null, and "(1,234.50)" gives -1234.5. -/
theorem C5_parse_amount_en_dash :
    parse_amount_econ enDashStr = none ∧
    parse_amount_admin enDashStr = some 0 ∧
    parse_amount_econ "-" = some 0 ∧
    parse_amount_econ "" = none ∧
    parse_amount_econ "(1,234.50)" = some (-1234.5 : ℚ) := by
  refine ⟨by decide, by decide, by decide, by decide, ?_⟩
  have h : parse_amount_econ "(1,234.50)" = some (mkRat (-24690) 20) := by decide
  rw [h]
  simp only [Option.some.injEq]
  norm_num [Rat.mkRat_eq_div]

/-- Concrete two-year summary page of claim C7 with target year 2026 (the
later year) and a four-numeric-column Capital Expenditure line. -/
def C7pageTwoYear : String :=
  "Approved Budget Summary\n2025 Approved Budget   2026 Approved Budget\nCapital Expenditure   100   200   300   400"

set_option maxRecDepth 400000 in
/-- C7 counterexample: with target year 2026 — the later year of a two-year
summary — and a Capital Expenditure line with four numeric columns
100 200 300 400, the summary extractor takes index 1 (value 200), not the
fourth column (400) the claim's "later year" rule requires: the source's
four-column rule tests the literal string "2025", not the later year. -/
theorem C7_later_year_counterexample :
    (Summ.extract_budget_summary [C7pageTwoYear]
        "2026").1.capital_expenditure_total.value = some 200 ∧
    some (200 : ℚ) ≠ some (400 : ℚ) := by decide

set_option maxHeartbeats 2000000 in
/-- C7 (amended): for every matched summary line whose numeric-token list,
after the leading 23/11 code adjustment, has exactly four entries, and that
does not begin with a numeric code followed by a dash (for such lines the
leading token is dropped only after the index is chosen): the amount taken is
the parse of the fourth numeric column (index 3) when the target year is the
literal string "2025" and of the second (index 1) for every other target
year, whichever of the five summary items matched. -/
theorem C7_four_column_target_index (ty : String) (ti p : Nat)
    (sh : Option String) (shp : Option Nat) (line : String)
    (words : List String) (t : Summ.SummTotals)
    (q : List Char × List Char) (a b c d : String) (v : ℚ)
    (hsearch : Summ.searchWordsB line words = true)
    (hsplit : numSearchSplit line.data = some q)
    (htok : (numFindall q.2).map String.mk = [a, b, c, d])
    (hlab23 : isPrefixC "23 -".data (pyStrip (String.mk q.1)).data = false)
    (hlab11 : isPrefixC "11 -".data (pyStrip (String.mk q.1)).data = false)
    (hdash : Summ.lineStartsCodeDash line = false)
    (hparse : parse_amount_econ (if ty = "2025" then d else b) = some v) :
    (Summ.summaryItemStep ty ti p sh shp line "total_revenue" words
        t).revenue_total.value = some v ∧
    (Summ.summaryItemStep ty ti p sh shp line "total_expenditure" words
        t).total_budget.value = some v ∧
    (Summ.summaryItemStep ty ti p sh shp line "recurrent_expenditure" words
        t).recurrent_expenditure_total.value = some v ∧
    (Summ.summaryItemStep ty ti p sh shp line "capital_expenditure" words
        t).capital_expenditure_total.value = some v ∧
    ((Summ.summaryItemStep ty ti p sh shp line "recurrent_revenue" words
        t).recurrent_revenue_value).map (fun f => f.value) = some (some v) := by
  refine ⟨?_, ?_, ?_, ?_, ?_⟩
  all_goals
    unfold Summ.summaryItemStep
    rw [hsearch, hsplit]
    dsimp only
    rw [htok, hlab23, hlab11, hdash]
    simp only [Bool.not_true, Bool.false_eq_true, if_false, Bool.or_self,
      Summ.summary_pick_idx, List.length_cons, List.length_nil]
    by_cases hty : ty = "2025"
  all_goals
    first
    | (simp only [hty, if_pos rfl, reduceIte] at hparse ⊢
       rw [if_neg (by omega), show ([a, b, c, d].getD 3 "") = d from rfl, hparse]
       repeat' split
       all_goals simp_all [ExtractedField.with_value_prov])
    | (simp only [hty, if_true, if_false, if_neg hty] at hparse ⊢
       rw [if_neg (by omega), show ([a, b, c, d].getD 1 "") = b from rfl, hparse]
       repeat' split
       all_goals simp_all [ExtractedField.with_value_prov])

/-- Concrete Capital Expenditure line of the C7 witness, with four numeric
columns 100 200 300 400. -/
def C7line : String := "Capital Expenditure   100   200   300   400"

/-- The `NUM_RE` search split of `C7line`: label prefix and the tail from the
first numeric match on. -/
def C7q : List Char × List Char :=
  ("Capital Expenditure   ".data, "100   200   300   400".data)

set_option maxRecDepth 400000 in
/-- Witness for C7 at a concrete input: target year 2025 on the concrete
capital line takes the fourth column, 400. -/
theorem C7_four_column_target_index_witness :
    Summ.searchWordsB C7line ["capital", "expenditure"] = true ∧
    numSearchSplit C7line.data = some C7q ∧
    (numFindall C7q.2).map String.mk = ["100", "200", "300", "400"] ∧
    isPrefixC "23 -".data (pyStrip (String.mk C7q.1)).data = false ∧
    isPrefixC "11 -".data (pyStrip (String.mk C7q.1)).data = false ∧
    Summ.lineStartsCodeDash C7line = false ∧
    parse_amount_econ (if ("2025" : String) = "2025" then "400" else "200") =
      some 400 ∧
    (Summ.summaryItemStep "2025" 0 1 none none C7line "capital_expenditure"
        ["capital", "expenditure"]
        Summ.emptyTotals).capital_expenditure_total.value = some 400 :=
  ⟨by decide, by decide, by decide, by decide, by decide, by decide, by decide,
    (C7_four_column_target_index "2025" 0 1 none none C7line
      ["capital", "expenditure"] Summ.emptyTotals C7q "100" "200" "300" "400"
      400 (by decide) (by decide) (by decide) (by decide) (by decide)
      (by decide) (by decide)).2.2.2.1⟩

/-- C10: every receipt row returned by `extract_receipts` carries a category
(the receipt description) of length at least 6 with no digit character. -/
theorem C10_receipt_description (pages : List String) (ty : String) :
    RcptInv (Rcpt.extract_receipts pages ty) :=
  rcptPages_inv ty 1 pages _ (fun r hr => absurd hr (List.not_mem_nil r))

theorem dictInsert_find_self (d : List (String × String)) (k v : String) :
    (Admin.dictInsert d k v).find? (fun pr => pr.1 = k) = some (k, v) := by
  induction d with
  | nil => simp [Admin.dictInsert, List.find?]
  | cons p rest ih =>
    by_cases hpk : p.1 = k
    · simp [Admin.dictInsert, hpk, List.find?]
    · simp only [Admin.dictInsert]
      rw [if_neg hpk]
      simp [List.find?, hpk, ih]

/-- C9: a candidate row parsed with a non-empty name whose code is a parent
code (`^\d{6,}0{4,}$`) updates the parents mapping — afterwards the mapping
holds its name under its code — and emits no administrative unit; and every
unit `extract_admin_units` ever returns carries a non-parent code. -/
theorem C9_parent_code_rows (p : Nat) (line : String)
    (ctx : Admin.HeaderContext) (st : Admin.AdminState)
    (code nm : String) (cols : List String) (pages : List String)
    (hp : Admin.parse_row line = some (code, nm, cols))
    (hname : nm ≠ "") (hpar : is_parent_code code = true) :
    (Admin.adminRowStep p line ctx st).units = st.units ∧
    ((Admin.adminRowStep p line ctx st).parents.find?
      (fun pr => pr.1 = code)) = some (code, nm) ∧
    (∀ u ∈ (Admin.extract_admin_units pages).1,
      ∃ c, u.unit_code.value = some c ∧ is_parent_code c = false) := by
  have hstep : Admin.adminRowStep p line ctx st =
      { st with parents := Admin.dictInsert st.parents code nm,
                parent_rows := st.parent_rows ++
                  [{ code := code, name := nm
                     amounts := Admin.mkAmounts ctx.labels cols p line
                     page := p, line_text := pyStrip line
                     table_type := ctx.table_type }] } := by
    simp only [Admin.adminRowStep, hp]
    rw [if_neg hname, if_pos hpar]
  refine ⟨by rw [hstep], by rw [hstep]; exact dictInsert_find_self _ _ _, ?_⟩
  intro u hu
  obtain ⟨c, hc, hnp, -⟩ := ((extract_admin_units_inv pages).1 u hu).2.1
  exact ⟨c, hc, hnp⟩

/-- Concrete parent-code line of the claim C9 example. -/
def C9line : String := "021500000000  Education Sector  1,000"

/-- Witness for C9, at the claim example's input: the parent line with code
`021500000000` in an `expenditure_mda` context on the empty starting state. -/
theorem C9_parent_code_rows_witness :
    Admin.parse_row C9line =
        some ("021500000000", "Education Sector", ["1,000"]) ∧
    ("Education Sector" : String) ≠ "" ∧
    is_parent_code "021500000000" = true ∧
    ((Admin.adminRowStep 1 C9line ⟨[], "expenditure_mda"⟩
        ⟨[], [], [], none, []⟩).units = ([] : List AdministrativeUnit) ∧
      ((Admin.adminRowStep 1 C9line ⟨[], "expenditure_mda"⟩
          ⟨[], [], [], none, []⟩).parents.find?
        (fun pr => pr.1 = "021500000000")) =
          some ("021500000000", "Education Sector") ∧
      (∀ u ∈ (Admin.extract_admin_units []).1,
        ∃ c, u.unit_code.value = some c ∧ is_parent_code c = false)) :=
  ⟨by decide, by decide, by decide,
    C9_parent_code_rows 1 C9line ⟨[], "expenditure_mda"⟩ ⟨[], [], [], none, []⟩
      "021500000000" "Education Sector" ["1,000"] []
      (by decide) (by decide) (by decide)⟩

/-- C8: with a total budget present, `validate_global_reconciliation` reports
`global_expenditure_mismatch` if and only if the leaf sum of the expenditure
rows is defined and differs from the total budget by more than 1.0. -/
theorem C8_global_expenditure_iff (bt : BudgetTotals)
    (rev : List RevenueRow) (expRows : List EconomicExpenditureRow)
    (mda : List MdaExpenditureRow) (prog : List ProgrammeRow)
    (rr : Option String) (t : ℚ)
    (ht : bt.total_budget.value = some t) :
    (((Valid.validate_global_reconciliation bt rev expRows mda prog rr).any
        (fun e => e.code = "global_expenditure_mismatch")) = true ↔
      (∃ s, Valid.leaf_sum (expRows.map Valid.econKeyAmt) = some s ∧
        1 < |t - s|)) := by
  simp only [Valid.validate_global_reconciliation, ht]
  rcases hls : Valid.leaf_sum (List.map Valid.econKeyAmt expRows) with _ | s
  all_goals dsimp only
  · constructor
    · intro hany
      exfalso
      rw [List.any_eq_true] at hany
      obtain ⟨e, he, hcode⟩ := hany
      simp only [List.mem_append] at he
      rcases he with ((he | he) | he) | he <;>
        (repeat' split at he) <;> simp_all
    · rintro ⟨s, hs, -⟩
      exact Option.noConfusion hs
  · by_cases htol : 1 < |t - s|
    · rw [if_pos htol]
      refine ⟨fun _ => ⟨s, rfl, htol⟩, fun _ => ?_⟩
      simp [List.any_append]
    · rw [if_neg htol]
      constructor
      · intro hany
        exfalso
        rw [List.any_eq_true] at hany
        obtain ⟨e, he, hcode⟩ := hany
        simp only [List.mem_append] at he
        rcases he with ((he | he) | he) | he <;>
          (repeat' split at he) <;> simp_all
      · rintro ⟨s', hs', htol'⟩
        obtain rfl : s = s' := Option.some.inj hs'
        exact absurd htol' htol

/-- Budget totals of the C8 witness: total budget 100, everything else
unextracted. -/
def C8bt : BudgetTotals :=
  { total_budget := ExtractedField.with_value 100
    capital_expenditure_total := ExtractedField.null "not_extracted"
    recurrent_expenditure_total := ExtractedField.null "not_extracted"
    revenue_total := ExtractedField.null "not_extracted"
    financing_total := ExtractedField.null "not_extracted"
    budget_summary_text := ExtractedField.null "not_extracted" }

/-- Expenditure rows of the C8 witness: code 01 at 100 and its child 0101 at
95, so the leaf sum is 95 and the mismatch error fires. -/
def C8expRows : List EconomicExpenditureRow :=
  [{ code := ExtractedField.with_value "01"
     category := ExtractedField.with_value "Personnel"
     subcategory := ExtractedField.null "not_extracted"
     amount := ExtractedField.with_value 100
     page := some 1, line_text := some "01 Personnel 100" },
   { code := ExtractedField.with_value "0101"
     category := ExtractedField.with_value "Salaries"
     subcategory := ExtractedField.null "not_extracted"
     amount := ExtractedField.with_value 95
     page := some 1, line_text := some "0101 Salaries 95" }]

/-- Witness for C8 at a concrete input: total budget 100 against a leaf
expenditure sum of 95. -/
theorem C8_global_expenditure_iff_witness :
    C8bt.total_budget.value = some 100 ∧
    (((Valid.validate_global_reconciliation C8bt [] C8expRows [] [] none).any
        (fun e => e.code = "global_expenditure_mismatch")) = true ↔
      (∃ s, Valid.leaf_sum (C8expRows.map Valid.econKeyAmt) = some s ∧
        1 < |(100 : ℚ) - s|)) :=
  ⟨rfl, C8_global_expenditure_iff C8bt [] C8expRows [] [] none 100 rfl⟩

def sep3 : List Char := [' ', ' ', ' ']

def headNonWsB : List Char → Bool
  | [] => true
  | c :: _ => !isPySpace c

def lastNonWsB (l : List Char) : Bool := headNonWsB l.reverse

def noWsPairB : List Char → Bool
  | [] => true
  | [_] => true
  | c1 :: c2 :: rest => !(isPySpace c1 && isPySpace c2) && noWsPairB (c2 :: rest)

def cleanColB (l : List Char) : Bool :=
  !l.isEmpty && headNonWsB l && lastNonWsB l && noWsPairB l

theorem dropWhile_headNonWs (y : List Char) (h : headNonWsB y = true) :
    y.dropWhile isPySpace = y := by
  cases y with
  | nil => rfl
  | cons c t =>
    simp only [headNonWsB, Bool.not_eq_true'] at h
    simp [List.dropWhile_cons, h]

theorem rstripC_of_lastNonWs (x : List Char) (h : lastNonWsB x = true) :
    rstripC x = x := by
  unfold rstripC
  rw [dropWhile_headNonWs _ h, List.reverse_reverse]

theorem splitRunsF_fuel (x : List Char) :
    ∀ f1 f2 acc, x.length < f1 → x.length < f2 →
      splitRunsF f1 acc x = splitRunsF f2 acc x := by
  generalize hn : x.length = n
  induction n using Nat.strong_induction_on generalizing x with
  | _ n ih =>
    intro f1 f2 acc h1 h2
    subst hn
    obtain ⟨g1, rfl⟩ : ∃ g, f1 = g + 1 := ⟨f1 - 1, by omega⟩
    obtain ⟨g2, rfl⟩ : ∃ g, f2 = g + 1 := ⟨f2 - 1, by omega⟩
    cases x with
    | nil => rfl
    | cons c1 t =>
      cases t with
      | nil => rfl
      | cons c2 rest =>
        simp only [List.length_cons] at h1 h2
        have hdw := length_dropWhile_le isPySpace rest
        have hrec1 : (rest.dropWhile isPySpace).length < (c1 :: c2 :: rest).length := by
          simp only [List.length_cons]
          omega
        have hrec2 : (c2 :: rest).length < (c1 :: c2 :: rest).length := by simp
        have hf1 : (c2 :: rest).length < g1 := by
          simp only [List.length_cons]
          omega
        have hf2 : (c2 :: rest).length < g2 := by
          simp only [List.length_cons]
          omega
        simp only [splitRunsF]
        split
        · split
          · congr 1
            exact ih (rest.dropWhile isPySpace).length hrec1 _ rfl g1 g2 []
              (by omega) (by omega)
          · exact ih (c2 :: rest).length hrec2 _ rfl g1 g2 (c1 :: acc) hf1 hf2
        · exact ih (c2 :: rest).length hrec2 _ rfl g1 g2 (c1 :: acc) hf1 hf2

theorem splitRunsF_noPair (x : List Char) :
    noWsPairB x = true →
    ∀ fuel acc, x.length < fuel →
      splitRunsF fuel acc x = [acc.reverse ++ x] := by
  induction x with
  | nil =>
    intro _ fuel acc h
    obtain ⟨g, rfl⟩ : ∃ g, fuel = g + 1 := ⟨fuel - 1, by omega⟩
    simp [splitRunsF]
  | cons c t ih =>
    intro hx fuel acc h
    obtain ⟨g, rfl⟩ : ∃ g, fuel = g + 1 := ⟨fuel - 1, by omega⟩
    cases t with
    | nil => simp [splitRunsF]
    | cons c2 rest =>
      simp only [noWsPairB, Bool.and_eq_true, Bool.not_eq_true'] at hx
      simp only [splitRunsF]
      split
      · split
        · rename_i h1 h2
          exfalso
          simp [h1, h2] at hx
        · rw [ih hx.2 g (c :: acc) (by simp at h ⊢; omega)]
          simp
      · rw [ih hx.2 g (c :: acc) (by simp at h ⊢; omega)]
        simp

theorem headNonWsB_append (x z : List Char) (hx : x ≠ []) :
    headNonWsB (x ++ z) = headNonWsB x := by
  cases x with
  | nil => exact absurd rfl hx
  | cons c t => rfl

theorem lastNonWsB_cons (c : Char) (t : List Char) (h : t ≠ []) :
    lastNonWsB (c :: t) = lastNonWsB t := by
  unfold lastNonWsB
  rw [List.reverse_cons]
  exact headNonWsB_append t.reverse [c] (by simpa using h)

theorem splitRunsF_col_sep (y : List Char) (hy : headNonWsB y = true) :
    ∀ x : List Char, noWsPairB x = true → lastNonWsB x = true →
    ∀ fuel acc, (x ++ sep3 ++ y).length < fuel →
      splitRunsF fuel acc (x ++ sep3 ++ y) =
        (acc.reverse ++ x) :: splitWsRuns y := by
  intro x
  induction x with
  | nil =>
    intro _ _ fuel acc h
    obtain ⟨g, rfl⟩ : ∃ g, fuel = g + 1 := ⟨fuel - 1, by omega⟩
    show splitRunsF (g + 1) acc (' ' :: ' ' :: (' ' :: y)) = _
    simp only [splitRunsF]
    rw [if_pos (by decide), if_pos (by decide)]
    rw [show (' ' :: y).dropWhile isPySpace = y by
      simp only [List.dropWhile_cons]
      rw [if_pos (by decide)]
      exact dropWhile_headNonWs y hy]
    rw [splitRunsF_fuel y g (y.length + 1) []
      (by simp only [List.nil_append, List.length_append, List.length_cons,
            sep3] at h; omega)
      (by omega)]
    simp [splitWsRuns]
  | cons c t ih =>
    intro hx hl fuel acc h
    obtain ⟨g, rfl⟩ : ∃ g, fuel = g + 1 := ⟨fuel - 1, by omega⟩
    cases t with
    | nil =>
      have hc : isPySpace c = false := by
        simpa [lastNonWsB, headNonWsB, Bool.not_eq_true'] using hl
      have hlen : (([] : List Char) ++ sep3 ++ y).length < g := by
        simp only [List.length_append, List.length_cons, List.nil_append, sep3,
          List.length_nil] at h ⊢
        omega
      have hrec := ih rfl rfl g (c :: acc) hlen
      have harg : (([] : List Char) ++ sep3 ++ y) = ' ' :: ' ' :: (' ' :: y) := by
        simp [sep3]
      rw [harg] at hrec
      show splitRunsF (g + 1) acc (c :: (' ' :: (' ' :: (' ' :: y)))) = _
      simp only [splitRunsF]
      rw [if_neg (by simp [hc])]
      rw [hrec]
      simp
    | cons c2 rest =>
      simp only [noWsPairB, Bool.and_eq_true, Bool.not_eq_true'] at hx
      have hl2 : lastNonWsB (c2 :: rest) = true := by
        rw [← lastNonWsB_cons c (c2 :: rest) (by simp)]
        exact hl
      have hlen : ((c2 :: rest) ++ sep3 ++ y).length < g := by
        simp only [List.length_append, List.length_cons] at h ⊢
        omega
      have hrec := ih hx.2 hl2 g (c :: acc) hlen
      have harg : (c2 :: rest) ++ sep3 ++ y = c2 :: (rest ++ sep3 ++ y) := by
        simp
      rw [harg] at hrec
      show splitRunsF (g + 1) acc (c :: (c2 :: (rest ++ sep3 ++ y))) = _
      by_cases hc : isPySpace c
      · have hc2 : isPySpace c2 = false := by
          rcases hb : isPySpace c2 with _ | _
          · rfl
          · exfalso
            have h1 := hx.1
            rw [hb] at h1
            simp only [Bool.and_true] at h1
            rw [h1] at hc
            exact Bool.noConfusion hc
        simp only [splitRunsF]
        rw [if_pos hc, if_neg (by simp [hc2])]
        rw [hrec]
        simp
      · simp only [splitRunsF]
        rw [if_neg hc]
        rw [hrec]
        simp

def joinSep3 : List (List Char) → List Char
  | [] => []
  | [c] => c
  | c :: c2 :: rest => c ++ sep3 ++ joinSep3 (c2 :: rest)

theorem joinSep3_ne_nil (c : List Char) (rest : List (List Char))
    (hc : c ≠ []) : joinSep3 (c :: rest) ≠ [] := by
  cases rest with
  | nil => simpa [joinSep3] using hc
  | cons c2 r2 =>
    simp only [joinSep3]
    intro hcon
    rcases List.append_eq_nil.mp (List.append_eq_nil.mp hcon).1 with ⟨h1, -⟩
    exact hc h1

theorem headNonWsB_joinSep3 (c : List Char) (rest : List (List Char))
    (hc : c ≠ []) : headNonWsB (joinSep3 (c :: rest)) = headNonWsB c := by
  cases rest with
  | nil => rfl
  | cons c2 r2 =>
    simp only [joinSep3]
    rw [List.append_assoc]
    exact headNonWsB_append c _ hc

theorem lastNonWsB_append (a b : List Char) (hb : b ≠ []) :
    lastNonWsB (a ++ b) = lastNonWsB b := by
  unfold lastNonWsB
  rw [List.reverse_append]
  exact headNonWsB_append b.reverse a.reverse (by simpa using hb)

theorem lastNonWsB_joinSep3 (cols : List (List Char))
    (h : ∀ c ∈ cols, cleanColB c = true) :
    lastNonWsB (joinSep3 cols) = true := by
  induction cols with
  | nil => rfl
  | cons c rest ih =>
    have hc := h c (by simp)
    simp only [cleanColB, Bool.and_eq_true] at hc
    cases rest with
    | nil => exact hc.1.2
    | cons c2 r2 =>
      have hne : joinSep3 (c2 :: r2) ≠ [] := by
        apply joinSep3_ne_nil
        have hc2 := h c2 (by simp)
        simp only [cleanColB, Bool.and_eq_true] at hc2
        simpa using hc2.1.1.1
      simp only [joinSep3]
      rw [List.append_assoc, lastNonWsB_append c _ (by
        intro hcon
        rcases List.append_eq_nil.mp hcon with ⟨-, h2⟩
        exact hne h2)]
      rw [lastNonWsB_append sep3 _ hne]
      exact ih (fun d hd => h d (by simp [hd]))

theorem splitWsRuns_joinSep3 (cols : List (List Char)) (hne : cols ≠ [])
    (h : ∀ c ∈ cols, cleanColB c = true) :
    splitWsRuns (joinSep3 cols) = cols := by
  induction cols with
  | nil => exact absurd rfl hne
  | cons c rest ih =>
    have hc := h c (by simp)
    simp only [cleanColB, Bool.and_eq_true] at hc
    cases rest with
    | nil =>
      show splitWsRuns c = [c]
      unfold splitWsRuns
      rw [splitRunsF_noPair c hc.2 (c.length + 1) [] (by omega)]
      rfl
    | cons c2 r2 =>
      have hc2 := h c2 (by simp)
      simp only [cleanColB, Bool.and_eq_true] at hc2
      have hhead : headNonWsB (joinSep3 (c2 :: r2)) = true := by
        rw [headNonWsB_joinSep3 c2 r2 (by simpa using hc2.1.1.1)]
        exact hc2.1.1.2
      show splitWsRuns (c ++ sep3 ++ joinSep3 (c2 :: r2)) = _
      unfold splitWsRuns
      rw [splitRunsF_col_sep (joinSep3 (c2 :: r2)) hhead c hc.2 hc.1.2
        ((c ++ sep3 ++ joinSep3 (c2 :: r2)).length + 1) [] (by omega)]
      rw [ih (by simp) (fun d hd => h d (by simp [hd]))]
      rfl

theorem lstrip_headNonWs (y : List Char) (h : headNonWsB y = true) :
    lstripC y = y := dropWhile_headNonWs y h

theorem stripC_clean (c : List Char) (hh : headNonWsB c = true)
    (hl : lastNonWsB c = true) : stripC c = c := by
  unfold stripC
  rw [lstrip_headNonWs c hh, rstripC_of_lastNonWs c hl]

theorem intercalate_go_data (sep : String) (l : List String) :
    ∀ acc : String, (String.intercalate.go acc sep l).data =
      acc.data ++ (l.map (fun a => sep.data ++ a.data)).flatten := by
  induction l with
  | nil =>
    intro acc
    simp [String.intercalate.go]
  | cons a as ih =>
    intro acc
    simp only [String.intercalate.go]
    rw [ih]
    simp [String.data_append]

theorem joinSep3_eq_join (x : List Char) (xs : List (List Char)) :
    joinSep3 (x :: xs) = x ++ (xs.map (fun d => sep3 ++ d)).flatten := by
  induction xs generalizing x with
  | nil => simp [joinSep3]
  | cons z zs ih =>
    simp only [joinSep3, List.map_cons, List.flatten]
    rw [ih z]
    simp

theorem intercalate_sep3_data (cols : List String) :
    (String.intercalate "   " cols).data = joinSep3 (cols.map String.data) := by
  cases cols with
  | nil => rfl
  | cons a as =>
    show (String.intercalate.go a "   " as).data = _
    rw [intercalate_go_data]
    rw [List.map_cons, joinSep3_eq_join]
    congr 1
    rw [List.map_map]
    rfl

/-- C6 (amended): the three-space column round-trip holds for columns that are
non-empty, do not start or end with a whitespace character and contain no two
adjacent whitespace characters (the source splits on every run of two or more
whitespace characters and strips each fragment, so other columns cannot
survive the round-trip). -/
theorem C6_split_columns_round_trip (cols : List String)
    (h : ∀ c ∈ cols, cleanColB c.data = true) :
    split_columns (String.intercalate "   " cols) = cols := by
  cases cols with
  | nil => rfl
  | cons a as =>
    have hclean : ∀ c ∈ (a :: as).map String.data, cleanColB c = true := by
      intro c hc
      rw [List.mem_map] at hc
      obtain ⟨sref, hs, rfl⟩ := hc
      exact h sref hs
    have hcl : ∀ c ∈ (a :: as).map String.data,
        headNonWsB c = true ∧ lastNonWsB c = true ∧ c ≠ [] := by
      intro c hc
      have := hclean c hc
      simp only [cleanColB, Bool.and_eq_true] at this
      exact ⟨this.1.1.2, this.1.2, by simpa using this.1.1.1⟩
    unfold split_columns
    rw [intercalate_sep3_data]
    rw [rstripC_of_lastNonWs _ (lastNonWsB_joinSep3 _ hclean)]
    rw [splitWsRuns_joinSep3 _ (by simp) hclean]
    rw [show List.map stripC ((a :: as).map String.data) =
        (a :: as).map String.data from
      (List.map_congr_left (fun c hc =>
        stripC_clean c (hcl c hc).1 (hcl c hc).2.1)).trans
        (List.map_id _)]
    rw [List.filter_eq_self.mpr (fun c hc => by
      simpa using (hcl c hc).2.2)]
    rw [List.map_map]
    exact (List.map_congr_left (fun c _ => string_mk_data c)).trans
      (List.map_id _)

/-- C6 counterexample: the column "a  b" is non-empty, yet the split of the
three-space join of ["a  b"] breaks it at its internal double space, so the
round-trip of the claim fails on a list of non-empty strings. -/
theorem C6_round_trip_counterexample :
    (∀ c ∈ ["a  b"], c ≠ "") ∧
    split_columns (String.intercalate "   " ["a  b"]) ≠ ["a  b"] := by decide

/-- Witness for C6 at a concrete input: three clean columns survive the
round-trip. -/
theorem C6_split_columns_round_trip_witness :
    (∀ c ∈ ["Ministry of Education", "1,000,000", "250,000"],
      cleanColB c.data = true) ∧
    split_columns (String.intercalate "   "
      ["Ministry of Education", "1,000,000", "250,000"]) =
      ["Ministry of Education", "1,000,000", "250,000"] :=
  ⟨by decide, C6_split_columns_round_trip _ (by decide)⟩
